import Mathlib

/-!
Shallow embedding of the PostyBirb post-orchestration corpus:
the Furbooru destination adapter (unnamed/part_000), the custom-e621 tag
search provider (unnamed/part_000), the Weasyl adapter
(electron-app/src/websites/weasyl/weasyl.service.ts) and the
SubmissionService (electron-app/src/submission/submission.service.ts),
together with theorems settling the frozen claims about them.
-/

/-! ### Cancellation token and the Furbooru post retry wrapper

Source: unnamed/part_000, class Furbooru, postFileSubmission (lines 95-106)
and attemptFilePost (lines 121-175).  The attempt body prepares tags and the
multipart form purely, checks the cancellation token, and performs exactly
one HTTP dispatch whose outcome (including verifyResponse and
createPostResponse) we model as a per-attempt-index result.
-/

/-- CancellationToken: the shared mutable flag, modelled by the value the
post observes while it runs (source: cancellation-token collaborator). -/
structure CancellationToken where
  cancelled : Bool

/-- Errors a post attempt can surface: the cancellation abort or an
ordinary destination/transport failure. -/
inductive PostError
  | cancelled
  | postFailed (message : String)
deriving DecidableEq, Repr

/-- PostResponse as produced by createPostResponse. -/
structure PostResponse where
  website : String
deriving DecidableEq, Repr

/-- Environment of one call to Furbooru.postFileSubmission: the token state
and, for each attempt index, the outcome of the dispatch
(Http.post followed by verifyResponse / createPostResponse). -/
structure PostEnv where
  token : CancellationToken
  httpOutcome : Nat → Except PostError PostResponse

/-- Outcome of one attemptFilePost call: whether the HTTP dispatch was
reached, and the attempt result. -/
structure AttemptOutcome where
  dispatched : Bool
  result : Except PostError PostResponse

/-- Modelled from the spec: Website.checkCancelled is not in the corpus;
spec 4.1 says adapters check the token at each blocking boundary and abort
with a Cancelled outcome if it is set. -/
def checkCancelled (t : CancellationToken) : Except PostError Unit :=
  if t.cancelled then .error .cancelled else .ok ()

/-- Furbooru.attemptFilePost: tag and form preparation are pure; the
cancellation check precedes the single HTTP dispatch of the attempt. -/
def Furbooru.attemptFilePost (env : PostEnv) (n : Nat) : AttemptOutcome :=
  match checkCancelled env.token with
  | .error e => { dispatched := false, result := .error e }
  | .ok _ => { dispatched := true, result := env.httpOutcome n }

/-- Furbooru.postFileSubmission: try attemptFilePost; on any thrown error,
perform one more attemptFilePost with the same token and data and return its
outcome as-is (a second failure propagates). -/
def Furbooru.postFileSubmission (env : PostEnv) : Except PostError PostResponse :=
  match (Furbooru.attemptFilePost env 0).result with
  | .ok r => .ok r
  | .error _ => (Furbooru.attemptFilePost env 1).result

/-- How many attemptFilePost calls one postFileSubmission call performs. -/
def Furbooru.attemptsPerformed (env : PostEnv) : Nat :=
  match (Furbooru.attemptFilePost env 0).result with
  | .ok _ => 1
  | .error _ => 2

/-- Whether the catch-branch retry of postFileSubmission runs. -/
def Furbooru.retryPerformed (env : PostEnv) : Bool :=
  match (Furbooru.attemptFilePost env 0).result with
  | .ok _ => false
  | .error _ => true

/-- How many HTTP dispatches the whole postFileSubmission call performs. -/
def Furbooru.dispatchCount (env : PostEnv) : Nat :=
  (if (Furbooru.attemptFilePost env 0).dispatched then 1 else 0) +
    (if Furbooru.retryPerformed env then
      (if (Furbooru.attemptFilePost env 1).dispatched then 1 else 0) else 0)

/-! ### Furbooru rating tag logic (source lines 108-154) -/

/-- SubmissionRating: a string enum at runtime, so values outside the four
declared members are representable and fall to the switch default. -/
inductive SubmissionRating
  | GENERAL
  | MATURE
  | ADULT
  | EXTREME
  | other (value : String)
deriving DecidableEq, Repr

/-- Furbooru.getRating (lines 108-119): MATURE maps to questionable, ADULT
and EXTREME to explicit, GENERAL and the default case to safe. -/
def Furbooru.getRating : SubmissionRating → String
  | .MATURE => "questionable"
  | .ADULT => "explicit"
  | .EXTREME => "explicit"
  | _ => "safe"

/-- The knownRatings constant of attemptFilePost (lines 131-139). -/
def Furbooru.knownRatings : List String :=
  ["safe", "suggestive", "questionable", "explicit", "semi-grimdark",
   "grimdark", "grotesque"]

/-- ASCII lowercase of a character, as String.prototype.toLowerCase acts on
the ASCII tag strings involved. -/
def charLower (c : Char) : Char :=
  if 65 ≤ c.toNat ∧ c.toNat ≤ 90 then Char.ofNat (c.toNat + 32) else c

/-- ASCII lowercase of a string. -/
def strLower (s : String) : String :=
  ⟨s.data.map charLower⟩

/-- The rating-tag append logic of Furbooru.attemptFilePost (lines 130-154):
lowercase the parsed tags, skip if they already hold the mapped rating tag,
otherwise walk knownRatings clearing the add flag on a hit, and append the
mapped rating tag when the flag survived. -/
def Furbooru.appendRatingTag (tags : List String) (rating : SubmissionRating) : List String :=
  let ratingTag := Furbooru.getRating rating
  let lowerCaseTags := tags.map strLower
  if !(lowerCaseTags.contains ratingTag) then
    let add := Furbooru.knownRatings.foldl
      (fun acc r => if lowerCaseTags.contains r then false else acc) true
    if add then tags ++ [ratingTag] else tags
  else tags

/-- The claim's reading of the membership tests: the tag list contains a
given lowercase constant up to case-insensitivity. -/
def containsCaseInsensitive (tags : List String) (tag : String) : Bool :=
  tags.any (fun t => strLower t == tag)

/-! ### customE621TagSearchProvider (unnamed/part_000 lines 4-16) -/

/-- One entry of the autocomplete response; the provider reads its name. -/
structure TagEntry where
  name : String
deriving DecidableEq, Repr

/-- A rejected-request error from Axios. -/
inductive AxiosError
  | requestFailed (message : String)
deriving DecidableEq, Repr

/-- JS promise then with a non-throwing callback: a fulfilled value is fed
to the callback, a rejection passes through. -/
def promiseThen {α β : Type} (p : Except AxiosError α)
    (f : α → Except AxiosError β) : Except AxiosError β :=
  match p with
  | .error e => .error e
  | .ok v => f v

/-- JS promise catch: recovers any rejection into a fulfilled value. -/
def promiseCatch {α : Type} (p : Except AxiosError α) (h : AxiosError → α) :
    Except AxiosError α :=
  match p with
  | .error e => .ok (h e)
  | .ok v => .ok v

/-- customE621TagSearchProvider: Axios.get, then (data or []).map(d.name),
catch logging the error and resolving to [].  The request outcome is the
parameter; the response data may be absent. -/
def customE621TagSearchProvider
    (request : Except AxiosError (Option (List TagEntry))) :
    Except AxiosError (List String) :=
  promiseCatch
    (promiseThen request (fun data => .ok ((data.getD []).map TagEntry.name)))
    (fun _ => [])

/-- The claim's description of the provider result, written from its words:
the name field of each returned entry, empty when data is absent, empty on
any request error. -/
def expectedTagNames
    (request : Except AxiosError (Option (List TagEntry))) : List String :=
  match request with
  | .error _ => []
  | .ok none => []
  | .ok (some entries) => entries.map TagEntry.name

/-! ### Validation results and the two validators (claim C7)

Furbooru.validateFileSubmission: unnamed/part_000 lines 181-214.
Weasyl.validateFileSubmission: weasyl.service.ts lines 94-126 - note its
return type is a bare list of problem strings.
-/

/-- FileSubmissionType of the primary file. -/
inductive FileSubmissionType
  | IMAGE
  | VIDEO
  | AUDIOFILE
  | TEXT
deriving DecidableEq, Repr

/-- The enum value string, as interpolated into validator messages. -/
def FileSubmissionType.text : FileSubmissionType → String
  | .IMAGE => "IMAGE"
  | .VIDEO => "VIDEO"
  | .AUDIOFILE => "AUDIO"
  | .TEXT => "TEXT"

/-- The primary FileRecord fields the validators read. -/
structure FileRecord where
  name : String
  mimetype : String
  size : Nat
  type : FileSubmissionType
deriving DecidableEq, Repr

/-- The FileSubmission fields the validators read. -/
structure FileSubmission where
  primary : FileRecord
deriving DecidableEq, Repr

/-- Tag options of a part: a value list plus the extend-default switch. -/
structure TagOptions where
  extendDefault : Bool
  value : List String
deriving DecidableEq, Repr

/-- Modelled from the spec: FormContent.getTags / WebsiteValidator.getTags
are not in the corpus; spec 4.2 says shared tag sets are unioned into the
part's own unless the part explicitly overrides them. -/
def getTags (defaultTags partTags : TagOptions) : List String :=
  if partTags.extendDefault then defaultTags.value ++ partTags.value
  else partTags.value

/-- A website part as handed to a validator: just its option bag. -/
structure WebsitePart (α : Type) where
  data : α
deriving DecidableEq, Repr

/-- Default (shared) options merged into every part. -/
structure DefaultOptions where
  tags : TagOptions
deriving DecidableEq, Repr

/-- FurbooruFileOptions fields read by the Furbooru validator. -/
structure FurbooruFileOptions where
  autoScale : Bool
  tags : TagOptions
deriving DecidableEq, Repr

/-- DefaultWeasylSubmissionOptions fields read by the Weasyl validator. -/
structure WeasylFileOptions where
  tags : TagOptions
deriving DecidableEq, Repr

/-- Whether the character list starts with the given character list. -/
def charsStartWith : List Char → List Char → Bool
  | _, [] => true
  | [], _ :: _ => false
  | c :: cs, d :: ds => c == d && charsStartWith cs ds

/-- Whether the character list holds the needle as a contiguous run. -/
def charsContain (haystack needle : List Char) : Bool :=
  match haystack with
  | [] => needle.isEmpty
  | _ :: rest => charsStartWith haystack needle || charsContain rest needle

/-- String.prototype.includes. -/
def strIncludes (s sub : String) : Bool :=
  charsContain s.data sub.data

/-- Whether the string ends with the given suffix. -/
def strEndsWith (s suffix : String) : Bool :=
  charsStartWith s.data.reverse suffix.data.reverse

/-- Modelled from the spec: WebsiteValidator.supportsFileType is not in the
corpus; the adapter capability is its accepted file-type list (spec 6),
checked here against the file name extension. -/
def supportsFileType (file : FileRecord) (accepted : List String) : Bool :=
  accepted.any (fun ext => strEndsWith file.name ("." ++ ext))

/-- Modelled from the spec: FileSize.MBtoBytes / WebsiteValidator.MBtoBytes
are not in the corpus; megabytes to bytes. -/
def MBtoBytes (mb : Nat) : Nat :=
  mb * 1048576

/-- Modelled from the spec: ImageManipulator.isMimeType is not in the
corpus; whether the image mimetype is one the scaler handles. -/
def imageManipulatorIsMimeType (mimetype : String) : Bool :=
  ["image/jpeg", "image/jpg", "image/png"].contains mimetype

/-- ValidationParts as returned by the current-generation validators:
blocking problems and non-blocking warnings. -/
structure ValidationParts where
  problems : List String
  warnings : List String
deriving DecidableEq, Repr

/-- The Furbooru acceptsFiles constant (line 47). -/
def Furbooru.acceptsFiles : List String :=
  ["jpeg", "jpg", "png", "svg", "gif", "webm"]

/-- Furbooru.validateFileSubmission (lines 181-214): tag-count and
file-type problems, then the 100MB size rule which warns when autoscaling
an image the manipulator handles and blocks otherwise. -/
def Furbooru.validateFileSubmission (submission : FileSubmission)
    (submissionPart : WebsitePart FurbooruFileOptions)
    (defaultPart : WebsitePart DefaultOptions) : ValidationParts :=
  let isAutoscaling := submissionPart.data.autoScale
  let problems0 : List String :=
    if (getTags defaultPart.data.tags submissionPart.data.tags).length < 5 then
      ["Requires at least 5 tags."]
    else []
  let problems1 : List String :=
    if !(supportsFileType submission.primary Furbooru.acceptsFiles) then
      problems0 ++
        ["Currently supported file formats: " ++
          String.intercalate ", " Furbooru.acceptsFiles]
    else problems0
  let maxMB : Nat := 100
  if MBtoBytes maxMB < submission.primary.size then
    if isAutoscaling ∧ submission.primary.type = FileSubmissionType.IMAGE ∧
        imageManipulatorIsMimeType submission.primary.mimetype then
      { problems := problems1,
        warnings :=
          [submission.primary.name ++ " will be scaled down to " ++
            toString maxMB ++ "MB"] }
    else
      { problems :=
          problems1 ++
            ["Furbooru limits " ++ submission.primary.mimetype ++ " to " ++
              toString maxMB ++ "MB"],
        warnings := [] }
  else { problems := problems1, warnings := [] }

/-- The Weasyl acceptsFiles constant (weasyl.service.ts line 24). -/
def Weasyl.acceptsFiles : List String :=
  ["jpg", "jpeg", "png", "gif", "md", "txt", "pdf", "swf", "mp3"]

/-- Weasyl.validateFileSubmission (lines 94-126): returns a single ordered
list of problem strings; there is no warnings channel, every message
blocks.  The size rule picks 15MB for video and audio, 2MB for markdown
text, 10MB otherwise, and always reports an oversize as a problem. -/
def Weasyl.validateFileSubmission (submission : FileSubmission)
    (submissionPart : WebsitePart WeasylFileOptions)
    (defaultPart : WebsitePart DefaultOptions) : List String :=
  let problems0 : List String :=
    if !(supportsFileType submission.primary Weasyl.acceptsFiles) then
      ["Weasyl does not support file format: " ++
        submission.primary.mimetype ++ "."]
    else []
  let problems1 : List String :=
    if (getTags defaultPart.data.tags submissionPart.data.tags).length < 2 then
      problems0 ++ ["Weasyl requires at least 2 tags."]
    else problems0
  let ty := submission.primary.type
  let maxMB : Nat :=
    if ty = FileSubmissionType.VIDEO ∨ ty = FileSubmissionType.AUDIOFILE then 15
    else if ty = FileSubmissionType.TEXT then
      if strIncludes submission.primary.name ".md" ∨
          strIncludes submission.primary.name ".md" then 2
      else 10
    else 10
  if MBtoBytes maxMB < submission.primary.size then
    problems1 ++
      ["Weasyl limits " ++ ty.text ++ " to " ++ toString maxMB ++ "MB"]
  else problems1

/-! ### Theorems for claims C1, C2, C9, C10 -/

/-- A post environment in which the first dispatch fails transiently and
the second succeeds, with the token never cancelled. -/
def envRetrySucceeds : PostEnv :=
  { token := { cancelled := false },
    httpOutcome := fun n =>
      if n = 0 then .error (.postFailed "transient") else .ok { website := "Furbooru" } }

/-- A post environment whose token is observed cancelled before dispatch. -/
def envCancelledPost : PostEnv :=
  { token := { cancelled := true },
    httpOutcome := fun _ => .ok { website := "Furbooru" } }

/-- C1: if the first attemptFilePost succeeds, its response is returned with
no retry; if the first throws, exactly one additional attempt with the same
data runs, a successful second attempt's PostResponse is returned as the
overall result, and if both fail the second failure is the terminal error. -/
theorem Furbooru.postFileSubmission_retries_exactly_once (env : PostEnv) :
    (∀ r, (Furbooru.attemptFilePost env 0).result = .ok r →
      Furbooru.postFileSubmission env = .ok r ∧ Furbooru.attemptsPerformed env = 1) ∧
    (∀ e r, (Furbooru.attemptFilePost env 0).result = .error e →
      (Furbooru.attemptFilePost env 1).result = .ok r →
      Furbooru.postFileSubmission env = .ok r ∧ Furbooru.attemptsPerformed env = 2) ∧
    (∀ e₁ e₂, (Furbooru.attemptFilePost env 0).result = .error e₁ →
      (Furbooru.attemptFilePost env 1).result = .error e₂ →
      Furbooru.postFileSubmission env = .error e₂ ∧
        Furbooru.attemptsPerformed env = 2) := by
  refine ⟨?_, ?_, ?_⟩ <;> intros <;>
    simp_all [Furbooru.postFileSubmission, Furbooru.attemptsPerformed]

/-- Witness for C1: a concrete first-fails-second-succeeds environment. -/
theorem Furbooru.postFileSubmission_retries_exactly_once_witness :
    (Furbooru.attemptFilePost envRetrySucceeds 0).result =
        .error (.postFailed "transient") ∧
    (Furbooru.attemptFilePost envRetrySucceeds 1).result =
        .ok { website := "Furbooru" } ∧
    Furbooru.postFileSubmission envRetrySucceeds = .ok { website := "Furbooru" } ∧
    Furbooru.attemptsPerformed envRetrySucceeds = 2 :=
  ⟨rfl, rfl,
    (Furbooru.postFileSubmission_retries_exactly_once envRetrySucceeds).2.1
      (.postFailed "transient") { website := "Furbooru" } rfl rfl⟩

/-- C2 counterexample: with the token cancelled before dispatch, the first
attempt aborts with the Cancelled outcome, yet the indiscriminate catch of
postFileSubmission still performs the retry - the operation does not abort
without the one-retry as the claim states. -/
theorem Furbooru.cancelled_post_is_retried :
    envCancelledPost.token.cancelled = true ∧
    Furbooru.retryPerformed envCancelledPost = true ∧
    Furbooru.attemptsPerformed envCancelledPost = 2 :=
  ⟨rfl, rfl, rfl⟩

/-- C2 amended: when the token is cancelled before dispatch, each attempt
aborts at its cancellation check so no HTTP dispatch ever happens and the
post surfaces the Cancelled error, but the catch-all retry still performs a
second attempt - cancellation is not exempted from the one-retry. -/
theorem Furbooru.cancelled_post_never_dispatches (env : PostEnv)
    (h : env.token.cancelled = true) :
    Furbooru.postFileSubmission env = .error .cancelled ∧
    Furbooru.dispatchCount env = 0 ∧
    Furbooru.attemptsPerformed env = 2 := by
  simp [Furbooru.postFileSubmission, Furbooru.attemptFilePost, checkCancelled, h,
    Furbooru.dispatchCount, Furbooru.attemptsPerformed, Furbooru.retryPerformed]

/-- Witness for the amended C2 at the concrete cancelled environment. -/
theorem Furbooru.cancelled_post_never_dispatches_witness :
    envCancelledPost.token.cancelled = true ∧
    (Furbooru.postFileSubmission envCancelledPost = .error .cancelled ∧
      Furbooru.dispatchCount envCancelledPost = 0 ∧
      Furbooru.attemptsPerformed envCancelledPost = 2) :=
  ⟨rfl, Furbooru.cancelled_post_never_dispatches envCancelledPost rfl⟩

/-- C9: the provider always resolves, never rejects, and its value is the
name of each returned entry, the empty list when the response data is
absent, and the empty list on any request error. -/
theorem customE621TagSearchProvider_always_resolves
    (request : Except AxiosError (Option (List TagEntry))) :
    customE621TagSearchProvider request = .ok (expectedTagNames request) := by
  cases request with
  | error e => rfl
  | ok data => cases data <;> rfl

theorem contains_map_lower (tags : List String) (c : String) :
    (tags.map strLower).contains c = containsCaseInsensitive tags c := by
  rw [List.contains_eq_any_beq, List.any_map]
  unfold containsCaseInsensitive
  have hf : ((fun x => c == x) ∘ strLower) = (fun t => strLower t == c) := by
    funext t
    exact Bool.beq_comm
  rw [hf]

theorem knownRatings_foldl_any (L : List String) :
    Furbooru.knownRatings.foldl
        (fun acc r => if L.contains r then false else acc) true
      = !(Furbooru.knownRatings.any (fun r => L.contains r)) := by
  simp only [Furbooru.knownRatings, List.foldl_cons, List.foldl_nil,
    List.any_cons, List.any_nil]
  generalize L.contains "safe" = b1
  generalize L.contains "suggestive" = b2
  generalize L.contains "questionable" = b3
  generalize L.contains "explicit" = b4
  generalize L.contains "semi-grimdark" = b5
  generalize L.contains "grimdark" = b6
  generalize L.contains "grotesque" = b7
  cases b1 <;> cases b2 <;> cases b3 <;> cases b4 <;> cases b5 <;>
    cases b6 <;> cases b7 <;> rfl

/-- C10: the rating maps to safe for GENERAL and unknown values, to
questionable for MATURE, to explicit for ADULT and EXTREME; and the mapped
rating tag is appended exactly when, case-insensitively, the tags hold
neither the mapped rating tag nor any known rating tag. -/
theorem Furbooru.appendRatingTag_characterization :
    (Furbooru.getRating .GENERAL = "safe" ∧
      Furbooru.getRating (.other "unrated") = "safe" ∧
      Furbooru.getRating .MATURE = "questionable" ∧
      Furbooru.getRating .ADULT = "explicit" ∧
      Furbooru.getRating .EXTREME = "explicit") ∧
    ∀ (tags : List String) (rating : SubmissionRating),
      Furbooru.appendRatingTag tags rating =
        if !(containsCaseInsensitive tags (Furbooru.getRating rating)) &&
            !(Furbooru.knownRatings.any
              (fun r => containsCaseInsensitive tags r)) then
          tags ++ [Furbooru.getRating rating]
        else tags := by
  refine ⟨⟨rfl, rfl, rfl, rfl, rfl⟩, ?_⟩
  intro tags rating
  simp only [Furbooru.appendRatingTag]
  rw [knownRatings_foldl_any]
  simp only [contains_map_lower]
  cases h1 : containsCaseInsensitive tags (Furbooru.getRating rating) <;>
    cases h2 : Furbooru.knownRatings.any (fun r => containsCaseInsensitive tags r) <;>
      simp [h1, h2]

/-! ### Theorems for claim C7 -/

/-- The Weasyl size limit in MB as a function of the file, mirroring the
maxMB selection of its validator. -/
def weasylMaxMB (f : FileRecord) : Nat :=
  if f.type = FileSubmissionType.VIDEO ∨ f.type = FileSubmissionType.AUDIOFILE then 15
  else if f.type = FileSubmissionType.TEXT then
    if strIncludes f.name ".md" ∨ strIncludes f.name ".md" then 2 else 10
  else 10

/-- The amended Furbooru problems channel, written from the contract words:
blocking messages in rule order - tag count, file type, then the size rule
when autoscaling does not apply. -/
def furbooruSpecProblems (s : FileSubmission) (p : WebsitePart FurbooruFileOptions)
    (d : WebsitePart DefaultOptions) : List String :=
  (if (getTags d.data.tags p.data.tags).length < 5 then
    ["Requires at least 5 tags."]
  else []) ++
  (if !(supportsFileType s.primary Furbooru.acceptsFiles) then
    ["Currently supported file formats: " ++
      String.intercalate ", " Furbooru.acceptsFiles]
  else []) ++
  (if MBtoBytes 100 < s.primary.size ∧
      ¬(p.data.autoScale ∧ s.primary.type = FileSubmissionType.IMAGE ∧
        imageManipulatorIsMimeType s.primary.mimetype) then
    ["Furbooru limits " ++ s.primary.mimetype ++ " to " ++
      toString (100 : Nat) ++ "MB"]
  else [])

/-- The amended Furbooru warnings channel: the autoscaling notice is the
only non-blocking message, emitted exactly when the file is oversized but
autoscaling applies. -/
def furbooruSpecWarnings (s : FileSubmission)
    (p : WebsitePart FurbooruFileOptions) : List String :=
  if MBtoBytes 100 < s.primary.size ∧ p.data.autoScale ∧
      s.primary.type = FileSubmissionType.IMAGE ∧
      imageManipulatorIsMimeType s.primary.mimetype then
    [s.primary.name ++ " will be scaled down to " ++ toString (100 : Nat) ++ "MB"]
  else []

/-- The amended Weasyl contract: one ordered sequence of blocking problems
in rule order - file type, tag count, then the size rule, which blocks
unconditionally. -/
def weasylSpecProblems (s : FileSubmission) (p : WebsitePart WeasylFileOptions)
    (d : WebsitePart DefaultOptions) : List String :=
  (if !(supportsFileType s.primary Weasyl.acceptsFiles) then
    ["Weasyl does not support file format: " ++ s.primary.mimetype ++ "."]
  else []) ++
  (if (getTags d.data.tags p.data.tags).length < 2 then
    ["Weasyl requires at least 2 tags."]
  else []) ++
  (if MBtoBytes (weasylMaxMB s.primary) < s.primary.size then
    ["Weasyl limits " ++ s.primary.type.text ++ " to " ++
      toString (weasylMaxMB s.primary) ++ "MB"]
  else [])

/-- A 200MB jpeg image submission. -/
def oversizedImage : FileSubmission :=
  { primary :=
      { name := "big.jpg", mimetype := "image/jpeg", size := MBtoBytes 200,
        type := .IMAGE } }

/-- A Furbooru part with autoscaling on and five tags. -/
def furbooruAutoscalePart : WebsitePart FurbooruFileOptions :=
  { data :=
      { autoScale := true,
        tags := { extendDefault := false, value := ["a", "b", "c", "d", "e"] } } }

/-- A Weasyl part with two tags. -/
def weasylTagPart : WebsitePart WeasylFileOptions :=
  { data := { tags := { extendDefault := false, value := ["a", "b"] } } }

/-- A default part contributing no shared tags. -/
def emptyDefaultPart : WebsitePart DefaultOptions :=
  { data := { tags := { extendDefault := false, value := [] } } }

/-- C7 counterexample: Weasyl.validateFileSubmission returns a bare ordered
list of problems with no warnings sequence at all - at this concrete
oversized-but-autoscalable input its entire result is the blocking size
problem, while Furbooru returns the two-channel ValidationResult reporting
the same condition as a non-blocking warning.  So the claim that every
destination adapter's validate returns a ValidationResult holding both a
problems sequence and a warnings sequence is false for the Weasyl adapter. -/
theorem Weasyl.validate_returns_bare_problem_list :
    Weasyl.validateFileSubmission oversizedImage weasylTagPart emptyDefaultPart =
      ["Weasyl limits IMAGE to 10MB"] ∧
    Furbooru.validateFileSubmission oversizedImage furbooruAutoscalePart
        emptyDefaultPart =
      { problems := [], warnings := ["big.jpg will be scaled down to 100MB"] } := by
  constructor <;> rfl

/-- C7 amended: Furbooru's validate returns a ValidationResult with an
ordered problems sequence and an ordered warnings sequence - warnings hold
exactly the non-blocking autoscaling notice - while Weasyl's validate
returns only an ordered sequence of blocking problems, with no warnings
channel, so its size rule always blocks. -/
theorem validateFileSubmission_channels :
    (∀ (s : FileSubmission) (p : WebsitePart FurbooruFileOptions)
        (d : WebsitePart DefaultOptions),
      Furbooru.validateFileSubmission s p d =
        { problems := furbooruSpecProblems s p d,
          warnings := furbooruSpecWarnings s p }) ∧
    (∀ (s : FileSubmission) (p : WebsitePart WeasylFileOptions)
        (d : WebsitePart DefaultOptions),
      Weasyl.validateFileSubmission s p d = weasylSpecProblems s p d) := by
  constructor
  · intro s p d
    simp only [Furbooru.validateFileSubmission, furbooruSpecProblems,
      furbooruSpecWarnings]
    split_ifs <;> simp_all
  · intro s p d
    simp only [Weasyl.validateFileSubmission, weasylSpecProblems, weasylMaxMB]
    split_ifs <;> simp_all

/-! ### SubmissionService model (submission.service.ts)

State: the persisted submissions and parts, the post service's posting and
pending-queue id sets (spec 4.4 collaborator), and fresh-id counters for
the repository. isPosting / isQueued are derived at read time, never
persisted (spec 3).
-/

/-- Per-part post status strings of the source. -/
inductive PostStatus
  | UNPOSTED
  | QUEUED
  | POSTING
  | POSTED
  | FAILED
deriving DecidableEq, Repr

/-- SubmissionType members accepted by create. -/
inductive SubmissionType
  | FILE
  | NOTIFICATION
deriving DecidableEq, Repr

/-- The schedule of a submission: optional postAt timestamp, one-shot flag. -/
structure SubmissionSchedule where
  postAt : Option Nat
  isScheduled : Bool
deriving DecidableEq, Repr

/-- The persisted submission fields the claims touch: identity, type,
schedule, and the primary and additional file locations. -/
structure SubmissionEntity where
  id : Nat
  type : SubmissionType
  schedule : SubmissionSchedule
  primary : String
  additional : List String
deriving DecidableEq, Repr

/-- A persisted submission part. -/
structure SubmissionPartEntity where
  partId : Nat
  accountId : Nat
  submissionId : Nat
  website : String
  data : String
  isDefault : Bool
  postStatus : PostStatus
  postedTo : Option String
deriving DecidableEq, Repr

/-- The shared state: repository contents plus the post service sets. -/
structure ServiceState where
  subs : List SubmissionEntity
  parts : List SubmissionPartEntity
  posting : List Nat
  queued : List Nat
  nextId : Nat
  nextPartId : Nat
deriving DecidableEq, Repr

/-- Errors the service surfaces. -/
inductive ServiceError
  | notFound
  | badRequest (message : String)
  | internalServer (message : String)
  | externalFailure (message : String)
deriving DecidableEq, Repr

/-- repository.findOne over submissions. -/
def findSub (st : ServiceState) (id : Nat) : Option SubmissionEntity :=
  st.subs.find? (fun s => s.id == id)

/-- repository.update: replace the stored submission with the same id. -/
def updateSub (st : ServiceState) (s : SubmissionEntity) : ServiceState :=
  { st with subs := st.subs.map (fun t => if t.id == s.id then s else t) }

/-- repository.save: persist a new submission under a fresh identity. -/
def saveSub (st : ServiceState) (s : SubmissionEntity) :
    ServiceState × SubmissionEntity :=
  let saved := { s with id := st.nextId }
  ({ st with subs := st.subs ++ [saved], nextId := st.nextId + 1 }, saved)

/-- PostService.isCurrentlyPosting, read by get and by the scan. -/
def isCurrentlyPosting (st : ServiceState) (id : Nat) : Bool :=
  st.posting.contains id

/-- PostService.isCurrentlyQueued, read by get and by the scan. -/
def isCurrentlyQueued (st : ServiceState) (id : Nat) : Bool :=
  st.queued.contains id

/-- Modelled from the spec: PostService.queue is not in the corpus; spec 4.4
says it adds to the pending set unless already queued or posting, and
duplicate enqueue is a no-op. -/
def postServiceQueue (st : ServiceState) (id : Nat) : ServiceState :=
  if isCurrentlyQueued st id || isCurrentlyPosting st id then st
  else { st with queued := st.queued ++ [id] }

/-- Modelled from the spec: PostService.cancel is not in the corpus; spec
4.4 says it signals the active token when posting and removes the
submission from the pending set when merely queued. -/
def postServiceCancel (st : ServiceState) (id : Nat) : ServiceState :=
  { st with queued := st.queued.erase id }

/-- Modelled from the spec: SubmissionPartService.getPartsForSubmission is
not in the corpus; the repository find over parts of one submission. -/
def getPartsForSubmission (st : ServiceState) (id : Nat) :
    List SubmissionPartEntity :=
  st.parts.filter (fun p => p.submissionId == id)

/-- Modelled from the spec: SubmissionPartService.createOrUpdateSubmissionPart
is not in the corpus; an upsert over SubmissionPart records, keyed by the
(submission, account) pair one part per account per submission has. -/
def createOrUpdateSubmissionPart (st : ServiceState)
    (p : SubmissionPartEntity) : ServiceState :=
  if st.parts.any (fun q =>
      q.submissionId == p.submissionId && q.accountId == p.accountId) then
    { st with parts := st.parts.map (fun q =>
        if q.submissionId == p.submissionId && q.accountId == p.accountId then p
        else q) }
  else { st with parts := st.parts ++ [p] }

/-- Modelled from the spec: SubmissionPartService.removeSubmissionPart is
not in the corpus; removal of one part record by its identity. -/
def removeSubmissionPart (st : ServiceState) (pid : Nat) : ServiceState :=
  { st with parts := st.parts.filter (fun p => !(p.partId == pid)) }

/-- Modelled from the spec: SubmissionPartService.removeBySubmissionId is
not in the corpus; removal of every part of one submission. -/
def removeBySubmissionId (st : ServiceState) (id : Nat) : ServiceState :=
  { st with parts := st.parts.filter (fun p => !(p.submissionId == id)) }

/-- Modelled from the spec: SubmissionPartService.createDefaultPart is not
in the corpus; spec 3 gives one synthetic default part per submission. -/
def createDefaultPart (st : ServiceState) (submissionId : Nat) : ServiceState :=
  let part : SubmissionPartEntity :=
    { partId := st.nextPartId, accountId := 0, submissionId := submissionId,
      website := "", data := "", isDefault := true, postStatus := .UNPOSTED,
      postedTo := none }
  createOrUpdateSubmissionPart { st with nextPartId := st.nextPartId + 1 } part

/-- A submission as returned by get: the entity plus the derived flags. -/
structure SubmissionGetResult where
  entity : SubmissionEntity
  isPosting : Bool
  isQueued : Bool
deriving DecidableEq, Repr

/-- SubmissionService.get (lines 75-89): repository lookup, NotFound when
missing, then the isPosting / isQueued flags derived from the post
service. -/
def SubmissionService.get (st : ServiceState) (id : Nat) :
    Except ServiceError SubmissionGetResult :=
  match findSub st id with
  | none => .error .notFound
  | some s =>
    .ok { entity := s, isPosting := isCurrentlyPosting st s.id,
          isQueued := isCurrentlyQueued st s.id }

/-- JS truthiness of the optional numeric postAt: undefined and 0 are both
falsy. -/
def postAtFalsy (postAt : Option Nat) : Bool :=
  match postAt with
  | none => true
  | some t => t == 0

/-- SubmissionService.scheduleSubmission (lines 456-481): no isPosting
check; a truthy postAt argument overwrites the schedule, a falsy stored
postAt rejects, otherwise the isScheduled flag is written. -/
def SubmissionService.scheduleSubmission (st : ServiceState) (id : Nat)
    (isScheduled : Bool) (postAt : Option Nat) :
    ServiceState × Except ServiceError Unit :=
  match SubmissionService.get st id with
  | .error e => (st, .error e)
  | .ok g =>
    let s1 := match postAt with
      | some t =>
        if t ≠ 0 then
          { g.entity with schedule := { g.entity.schedule with postAt := some t } }
        else g.entity
      | none => g.entity
    if postAtFalsy s1.schedule.postAt then
      (st, .error (.badRequest
        "Submission cannot be scheduled because it does not have a postAt value"))
    else
      (updateSub st { s1 with schedule := { s1.schedule with isScheduled := isScheduled } },
        .ok ())

/-- SubmissionService.setPostAt (lines 514-531): rejects while posting,
otherwise writes the schedule's postAt. -/
def SubmissionService.setPostAt (st : ServiceState) (id : Nat)
    (postAt : Option Nat) : ServiceState × Except ServiceError Unit :=
  match SubmissionService.get st id with
  | .error e => (st, .error e)
  | .ok g =>
    if g.isPosting then
      (st, .error (.badRequest "Cannot update a submission that is posting"))
    else
      (updateSub st { g.entity with
        schedule := { g.entity.schedule with postAt := postAt } }, .ok ())

/-- The SubmissionUpdate payload fields the service reads. -/
structure SubmissionUpdate where
  id : Nat
  postAt : Option Nat
  parts : List SubmissionPartEntity
  removedParts : List Nat
deriving DecidableEq, Repr

/-- SubmissionService.setPart (lines 483-512): an existing part of the same
submission and account keeps everything but its data; a new part is built
from the given one under this submission. -/
def SubmissionService.setPart (st : ServiceState)
    (submission : SubmissionEntity) (sp : SubmissionPartEntity) : ServiceState :=
  let existing := st.parts.find? (fun q =>
    q.submissionId == submission.id && q.accountId == sp.accountId)
  let part : SubmissionPartEntity :=
    match existing with
    | some e => { e with data := sp.data }
    | none =>
      { partId := sp.partId, accountId := sp.accountId,
        submissionId := submission.id, website := sp.website,
        data := sp.data, isDefault := sp.isDefault,
        postStatus := sp.postStatus, postedTo := sp.postedTo }
  createOrUpdateSubmissionPart st part

/-- SubmissionService.updateSubmission (lines 414-436): rejects while
posting; otherwise writes the schedule - a falsy postAt also clears
isScheduled - then removes the removed parts and sets the given parts. -/
def SubmissionService.updateSubmission (st : ServiceState)
    (u : SubmissionUpdate) : ServiceState × Except ServiceError Unit :=
  match SubmissionService.get st u.id with
  | .error e => (st, .error e)
  | .ok g =>
    if g.isPosting then
      (st, .error (.badRequest "Cannot update a submission that is posting"))
    else
      let s1 := { g.entity with
        schedule :=
          { postAt := u.postAt,
            isScheduled :=
              if postAtFalsy u.postAt then false
              else g.entity.schedule.isScheduled } }
      let st1 := updateSub st s1
      let st2 := u.removedParts.foldl removeSubmissionPart st1
      let st3 := u.parts.foldl (fun acc p => SubmissionService.setPart acc s1 p) st2
      (st3, .ok ())

/-- SubmissionService.deleteSubmission body after a successful get: no
isPosting check - the post is cancelled instead - then part cleanup and
repository removal. -/
def SubmissionService.deleteSubmissionEntity (st : ServiceState)
    (s : SubmissionEntity) (skipCancel : Bool) :
    ServiceState × Except ServiceError Unit :=
  let st1 := if skipCancel then st else postServiceCancel st s.id
  let st2 := removeBySubmissionId st1 s.id
  ({ st2 with subs := st2.subs.filter (fun t => !(t.id == s.id)) }, .ok ())

/-- SubmissionService.deleteSubmission (lines 392-412) called with an id
reference: get may reject with NotFound, then the entity body runs. -/
def SubmissionService.deleteSubmission (st : ServiceState) (id : Nat)
    (skipCancel : Bool) : ServiceState × Except ServiceError Unit :=
  match findSub st id with
  | none => (st, .error .notFound)
  | some s => SubmissionService.deleteSubmissionEntity st s skipCancel

/-- SubmissionService.addFileSubmissionAdditionalFile (lines 651-669):
rejects while posting, otherwise records the additional file - the external
file service call modelled as appending its location - and updates. -/
def SubmissionService.addFileSubmissionAdditionalFile (st : ServiceState)
    (id : Nat) (location : String) : ServiceState × Except ServiceError Unit :=
  match SubmissionService.get st id with
  | .error e => (st, .error e)
  | .ok g =>
    if g.isPosting then
      (st, .error (.badRequest "Cannot update a submission that is posting"))
    else
      (updateSub st { g.entity with additional := g.entity.additional ++ [location] },
        .ok ())

/-- SubmissionService.removeFileSubmissionAdditionalFile (lines 588-605):
rejects while posting, otherwise drops the additional file at the given
location and updates. -/
def SubmissionService.removeFileSubmissionAdditionalFile (st : ServiceState)
    (id : Nat) (location : String) : ServiceState × Except ServiceError Unit :=
  match SubmissionService.get st id with
  | .error e => (st, .error e)
  | .ok g =>
    if g.isPosting then
      (st, .error (.badRequest "Cannot update a submission that is posting"))
    else
      (updateSub st { g.entity with
        additional := g.entity.additional.filter (fun l => !(l == location)) },
        .ok ())

/-! ### The scheduler scan (queueScheduledSubmissions, lines 58-73) -/

/-- A submission paired with its validation problems, as produced by
getAllAndValidate. -/
structure SubmissionPackage where
  submission : SubmissionEntity
  problems : List String
deriving DecidableEq, Repr

/-- SubmissionService.getAllAndValidate (lines 110-112): every stored
submission paired with the validator's problems for it.  The validator is
the external ValidatorService, a pure function of the submission (spec
4.2), passed here as a parameter by id. -/
def SubmissionService.getAllAndValidate (st : ServiceState)
    (validator : Nat → List String) : List SubmissionPackage :=
  st.subs.map (fun s => { submission := s, problems := validator s.id })

/-- The numeric sort key of the scan comparator: the postAt timestamp. -/
def postAtKey (s : SubmissionEntity) : Nat :=
  s.schedule.postAt.getD 0

/-- schedule.postAt <= now, false when postAt is undefined. -/
def scheduleDue (now : Nat) (s : SubmissionEntity) : Bool :=
  match s.schedule.postAt with
  | some t => t ≤ now
  | none => false

/-- The scan's ascending-postAt comparator on packages. -/
def pkgPostAtLE (a b : SubmissionPackage) : Prop :=
  postAtKey a.submission ≤ postAtKey b.submission

instance : DecidableRel pkgPostAtLE :=
  fun a b => Nat.decLe (postAtKey a.submission) (postAtKey b.submission)

instance : IsTotal SubmissionPackage pkgPostAtLE :=
  ⟨fun a b => Nat.le_total (postAtKey a.submission) (postAtKey b.submission)⟩

instance : IsTrans SubmissionPackage pkgPostAtLE :=
  ⟨fun _ _ _ => Nat.le_trans⟩

/-- The same comparator on bare submissions. -/
def subPostAtLE (a b : SubmissionEntity) : Prop :=
  postAtKey a ≤ postAtKey b

instance : DecidableRel subPostAtLE :=
  fun a b => Nat.decLe (postAtKey a) (postAtKey b)

instance : IsTotal SubmissionEntity subPostAtLE :=
  ⟨fun a b => Nat.le_total (postAtKey a) (postAtKey b)⟩

instance : IsTrans SubmissionEntity subPostAtLE :=
  ⟨fun _ _ _ => Nat.le_trans⟩

/-- SubmissionService.queueScheduledSubmissions (lines 58-73): validate all
submissions, keep the scheduled ones whose postAt is due that are neither
posting nor queued, sort ascending by postAt, then for each candidate fire
the unscheduling write - an unawaited promise whose rejection is swallowed -
and hand the submission to the post service queue. -/
def SubmissionService.queueScheduledSubmissions (st : ServiceState) (now : Nat)
    (validator : Nat → List String) : ServiceState :=
  let submissions := SubmissionService.getAllAndValidate st validator
  let cands :=
    List.insertionSort pkgPostAtLE
      ((((submissions.filter
            (fun p => p.submission.schedule.isScheduled)).filter
            (fun p => scheduleDue now p.submission)).filter
            (fun p => !(isCurrentlyPosting st p.submission.id))).filter
            (fun p => !(isCurrentlyQueued st p.submission.id)))
  cands.foldl
    (fun acc p =>
      let acc1 := (SubmissionService.scheduleSubmission acc p.submission.id false none).1
      postServiceQueue acc1 p.submission.id)
    st

/-- The scan's eligibility predicate, as one conjunction. -/
def scanEligible (st : ServiceState) (now : Nat) (s : SubmissionEntity) : Bool :=
  s.schedule.isScheduled && scheduleDue now s &&
    !(isCurrentlyPosting st s.id) && !(isCurrentlyQueued st s.id)

/-- The scan candidates at the submission level: the same filter chain, in
ascending postAt order. -/
def scanCandidates (st : ServiceState) (now : Nat) : List SubmissionEntity :=
  List.insertionSort subPostAtLE
    ((((st.subs.filter (fun s => s.schedule.isScheduled)).filter
        (fun s => scheduleDue now s)).filter
        (fun s => !(isCurrentlyPosting st s.id))).filter
        (fun s => !(isCurrentlyQueued st s.id)))

/-- One promotion step of the scan fold, by submission id. -/
def promoteOne (acc : ServiceState) (id : Nat) : ServiceState :=
  postServiceQueue (SubmissionService.scheduleSubmission acc id false none).1 id

/-- The effect of the scan on one stored submission: a promoted candidate
with a truthy postAt loses its isScheduled flag; one with a falsy postAt is
left scheduled because the unscheduling write is rejected. -/
def flipUnscheduled (ids : List Nat) (s : SubmissionEntity) : SubmissionEntity :=
  if s.id ∈ ids ∧ postAtFalsy s.schedule.postAt = false then
    { s with schedule := { s.schedule with isScheduled := false } }
  else s

theorem flipUnscheduled_nil (s : SubmissionEntity) : flipUnscheduled [] s = s := by
  simp [flipUnscheduled]

theorem flipUnscheduled_id (ids : List Nat) (s : SubmissionEntity) :
    (flipUnscheduled ids s).id = s.id := by
  unfold flipUnscheduled
  split <;> rfl

theorem flipUnscheduled_cons (i : Nat) (rest : List Nat) (s : SubmissionEntity) :
    flipUnscheduled rest (flipUnscheduled [i] s) = flipUnscheduled (i :: rest) s := by
  unfold flipUnscheduled
  by_cases h1 : s.id = i <;> by_cases h2 : s.id ∈ rest <;>
    by_cases h3 : postAtFalsy s.schedule.postAt = false <;>
      simp_all [List.mem_singleton, List.mem_cons]

theorem contains_eq_false_of_not_mem {l : List Nat} {a : Nat} (h : a ∉ l) :
    l.contains a = false := by
  simpa using h

theorem queueScheduledSubmissions_eq_fold (st : ServiceState) (now : Nat)
    (v : Nat → List String) :
    SubmissionService.queueScheduledSubmissions st now v =
      ((scanCandidates st now).map (fun s => s.id)).foldl promoteOne st := by
  unfold SubmissionService.queueScheduledSubmissions
    SubmissionService.getAllAndValidate scanCandidates
  simp only [List.filter_map]
  rw [← List.map_insertionSort subPostAtLE pkgPostAtLE
    (fun s => ({ submission := s, problems := v s.id } : SubmissionPackage))
    _ (fun a _ b _ => Iff.rfl)]
  rw [List.foldl_map, List.foldl_map]
  simp only [Function.comp_def, promoteOne]

theorem promoteOne_characterization (st : ServiceState) (i : Nat)
    (hsubs : (st.subs.map (fun s => s.id)).Nodup)
    (hq : i ∉ st.queued) (hp : i ∉ st.posting) :
    promoteOne st i =
      { subs := st.subs.map (flipUnscheduled [i]), parts := st.parts,
        posting := st.posting, queued := st.queued ++ [i],
        nextId := st.nextId, nextPartId := st.nextPartId } := by
  have hqc := contains_eq_false_of_not_mem hq
  have hpc := contains_eq_false_of_not_mem hp
  have hqueue : ∀ st1 : ServiceState, st1.queued = st.queued →
      st1.posting = st.posting →
      postServiceQueue st1 i = { st1 with queued := st1.queued ++ [i] } := by
    intro st1 h1 h2
    have hcond : (isCurrentlyQueued st1 i || isCurrentlyPosting st1 i) = false := by
      simp only [isCurrentlyQueued, isCurrentlyPosting, h1, h2,
        Bool.or_eq_false_iff]
      exact ⟨hqc, hpc⟩
    simp [postServiceQueue, hcond]
  cases hfind : findSub st i with
  | none =>
    have hno : ∀ s ∈ st.subs, s.id ≠ i := by
      intro s hs
      have := List.find?_eq_none.mp hfind s hs
      simpa using this
    have hmap : st.subs.map (flipUnscheduled [i]) = st.subs := by
      have h1 : ∀ s ∈ st.subs, flipUnscheduled [i] s = id s := by
        intro s hs
        simp [flipUnscheduled, hno s hs]
      rw [List.map_congr_left h1, List.map_id]
    have hsched : SubmissionService.scheduleSubmission st i false none =
        (st, .error .notFound) := by
      unfold SubmissionService.scheduleSubmission SubmissionService.get
      simp [hfind]
    have hsched1 : (SubmissionService.scheduleSubmission st i false none).1 = st := by
      rw [hsched]
    unfold promoteOne
    rw [hsched1, hqueue st rfl rfl, hmap]
  | some e =>
    have heid : e.id = i := by
      have := List.find?_some hfind
      simpa using this
    have hmem : e ∈ st.subs := List.mem_of_find?_eq_some hfind
    have huniq : ∀ t ∈ st.subs, t.id = i → t = e := by
      intro t ht hti
      exact List.inj_on_of_nodup_map hsubs ht hmem (by rw [hti, heid])
    by_cases hfal : postAtFalsy e.schedule.postAt = true
    · have hmap : st.subs.map (flipUnscheduled [i]) = st.subs := by
        have h1 : ∀ s ∈ st.subs, flipUnscheduled [i] s = id s := by
          intro s hs
          by_cases hsi : s.id = i
          · rw [huniq s hs hsi]
            simp [flipUnscheduled, hfal]
          · simp [flipUnscheduled, hsi]
        rw [List.map_congr_left h1, List.map_id]
      have hsched : SubmissionService.scheduleSubmission st i false none =
          (st, .error (.badRequest
            "Submission cannot be scheduled because it does not have a postAt value")) := by
        unfold SubmissionService.scheduleSubmission SubmissionService.get
        simp [hfind, hfal]
      have hsched1 : (SubmissionService.scheduleSubmission st i false none).1 = st := by
        rw [hsched]
      unfold promoteOne
      rw [hsched1, hqueue st rfl rfl, hmap]
    · have hfal' : postAtFalsy e.schedule.postAt = false := by
        simpa using hfal
      have hsched : SubmissionService.scheduleSubmission st i false none =
          (updateSub st { e with schedule := { e.schedule with isScheduled := false } },
            .ok ()) := by
        unfold SubmissionService.scheduleSubmission SubmissionService.get
        simp [hfind, hfal']
      have hsched1 : (SubmissionService.scheduleSubmission st i false none).1 =
          updateSub st { e with schedule := { e.schedule with isScheduled := false } } := by
        rw [hsched]
      unfold promoteOne
      rw [hsched1, hqueue
        (updateSub st { e with schedule := { e.schedule with isScheduled := false } })
        rfl rfl]
      unfold updateSub
      congr 1
      apply List.map_congr_left
      intro t ht
      by_cases hti : t.id = i
      · rw [huniq t ht hti]
        simp [flipUnscheduled, heid, hfal']
      · have hne : (t.id == e.id) = false := by
          simp [heid, hti]
        simp [hne, flipUnscheduled, hti]

theorem foldl_promoteOne_characterization (ids : List Nat) :
    ∀ st : ServiceState,
      (st.subs.map (fun s => s.id)).Nodup → ids.Nodup →
      (∀ i ∈ ids, i ∉ st.queued) → (∀ i ∈ ids, i ∉ st.posting) →
      ids.foldl promoteOne st =
        { subs := st.subs.map (flipUnscheduled ids), parts := st.parts,
          posting := st.posting, queued := st.queued ++ ids,
          nextId := st.nextId, nextPartId := st.nextPartId } := by
  induction ids with
  | nil =>
    intro st _ _ _ _
    have hmap : st.subs.map (flipUnscheduled []) = st.subs := by
      have h1 : ∀ s ∈ st.subs, flipUnscheduled [] s = id s :=
        fun s _ => flipUnscheduled_nil s
      rw [List.map_congr_left h1, List.map_id]
    simp [hmap]
  | cons i rest ih =>
    intro st hsubs hnodup hq hp
    have hmemi : i ∈ i :: rest := List.mem_cons_self i rest
    have hne : i ∉ rest := (List.nodup_cons.mp hnodup).1
    have hnodup' : rest.Nodup := (List.nodup_cons.mp hnodup).2
    have hstep := promoteOne_characterization st i hsubs (hq i hmemi) (hp i hmemi)
    have hsubs' :
        ((st.subs.map (flipUnscheduled [i])).map (fun s => s.id)).Nodup := by
      rw [List.map_map]
      have h1 : st.subs.map ((fun s => s.id) ∘ flipUnscheduled [i]) =
          st.subs.map (fun s => s.id) :=
        List.map_congr_left (fun s _ => flipUnscheduled_id [i] s)
      rw [h1]
      exact hsubs
    have hq' : ∀ j ∈ rest, j ∉ st.queued ++ [i] := by
      intro j hj
      simp only [List.mem_append, List.mem_singleton]
      rintro (h | h)
      · exact hq j (List.mem_cons_of_mem i hj) h
      · exact hne (h ▸ hj)
    have hp' : ∀ j ∈ rest, j ∉ st.posting :=
      fun j hj => hp j (List.mem_cons_of_mem i hj)
    have hcomp : (st.subs.map (flipUnscheduled [i])).map (flipUnscheduled rest) =
        st.subs.map (flipUnscheduled (i :: rest)) := by
      rw [List.map_map]
      exact List.map_congr_left (fun s _ => flipUnscheduled_cons i rest s)
    rw [List.foldl_cons, hstep,
      ih { subs := st.subs.map (flipUnscheduled [i]), parts := st.parts,
           posting := st.posting, queued := st.queued ++ [i],
           nextId := st.nextId, nextPartId := st.nextPartId }
        hsubs' hnodup' hq' hp']
    simp only [hcomp, List.append_assoc, List.singleton_append]

theorem not_mem_of_contains_eq_false {l : List Nat} {a : Nat}
    (h : l.contains a = false) : a ∉ l := by
  simpa using h

theorem mem_scanCandidates (st : ServiceState) (now : Nat) (s : SubmissionEntity) :
    s ∈ scanCandidates st now ↔ s ∈ st.subs ∧ scanEligible st now s = true := by
  unfold scanCandidates scanEligible
  rw [List.mem_insertionSort]
  simp only [List.mem_filter, Bool.and_eq_true]
  constructor
  · rintro ⟨⟨⟨⟨hmem, h1⟩, h2⟩, h3⟩, h4⟩
    exact ⟨hmem, ⟨⟨⟨h1, h2⟩, h3⟩, h4⟩⟩
  · rintro ⟨hmem, ⟨⟨⟨h1, h2⟩, h3⟩, h4⟩⟩
    exact ⟨⟨⟨⟨hmem, h1⟩, h2⟩, h3⟩, h4⟩

theorem scanCandidates_sorted (st : ServiceState) (now : Nat) :
    List.Sorted subPostAtLE (scanCandidates st now) :=
  List.sorted_insertionSort subPostAtLE _

theorem scanCandidates_ids_nodup (st : ServiceState) (now : Nat)
    (hsubs : (st.subs.map (fun s => s.id)).Nodup) :
    ((scanCandidates st now).map (fun s => s.id)).Nodup := by
  have hperm : List.Perm (scanCandidates st now)
      ((((st.subs.filter (fun s => s.schedule.isScheduled)).filter
          (fun s => scheduleDue now s)).filter
          (fun s => !(isCurrentlyPosting st s.id))).filter
          (fun s => !(isCurrentlyQueued st s.id))) :=
    List.perm_insertionSort subPostAtLE _
  have hsl : List.Sublist ((((st.subs.filter (fun s => s.schedule.isScheduled)).filter
      (fun s => scheduleDue now s)).filter
      (fun s => !(isCurrentlyPosting st s.id))).filter
      (fun s => !(isCurrentlyQueued st s.id))) st.subs :=
    (List.filter_sublist _).trans ((List.filter_sublist _).trans
      ((List.filter_sublist _).trans (List.filter_sublist _)))
  have hnd : ((((((st.subs.filter (fun s => s.schedule.isScheduled)).filter
      (fun s => scheduleDue now s)).filter
      (fun s => !(isCurrentlyPosting st s.id))).filter
      (fun s => !(isCurrentlyQueued st s.id))).map (fun s => s.id))).Nodup :=
    List.Nodup.sublist (List.Sublist.map (fun s => s.id) hsl) hsubs
  exact (List.Perm.nodup_iff (List.Perm.map (fun s => s.id) hperm)).mpr hnd

theorem scanCandidates_not_queued (st : ServiceState) (now : Nat) :
    ∀ i ∈ (scanCandidates st now).map (fun s => s.id), i ∉ st.queued := by
  intro i hi
  obtain ⟨s, hs, rfl⟩ := List.mem_map.mp hi
  have helig := ((mem_scanCandidates st now s).mp hs).2
  unfold scanEligible at helig
  simp only [Bool.and_eq_true, Bool.not_eq_true'] at helig
  exact not_mem_of_contains_eq_false helig.2

theorem scanCandidates_not_posting (st : ServiceState) (now : Nat) :
    ∀ i ∈ (scanCandidates st now).map (fun s => s.id), i ∉ st.posting := by
  intro i hi
  obtain ⟨s, hs, rfl⟩ := List.mem_map.mp hi
  have helig := ((mem_scanCandidates st now s).mp hs).2
  unfold scanEligible at helig
  simp only [Bool.and_eq_true, Bool.not_eq_true'] at helig
  exact not_mem_of_contains_eq_false helig.1.2

/-- A submission with its one-shot flag erased, for stating that the scan
touches nothing else. -/
def eraseScheduledFlag (s : SubmissionEntity) : SubmissionEntity :=
  { s with schedule := { s.schedule with isScheduled := false } }

theorem eraseScheduledFlag_flipUnscheduled (ids : List Nat) (s : SubmissionEntity) :
    eraseScheduledFlag (flipUnscheduled ids s) = eraseScheduledFlag s := by
  unfold flipUnscheduled eraseScheduledFlag
  split <;> rfl

/-- C3 amended: one scheduler tick promotes exactly the submissions that
are scheduled, due and neither posting nor queued; candidates are enqueued
in ascending postAt order, each exactly once; a promoted submission with a
nonzero postAt is marked no-longer-scheduled, but a promoted submission
with postAt = 0 is enqueued while the unscheduling write is rejected by the
falsy-postAt guard, leaving it scheduled - flipUnscheduled records exactly
that effect; nothing else of the state changes. -/
theorem queueScheduledSubmissions_characterization (st : ServiceState)
    (now : Nat) (validator : Nat → List String)
    (hsubs : (st.subs.map (fun s => s.id)).Nodup) :
    (∀ s, s ∈ scanCandidates st now ↔
      s ∈ st.subs ∧ scanEligible st now s = true) ∧
    List.Sorted subPostAtLE (scanCandidates st now) ∧
    (SubmissionService.queueScheduledSubmissions st now validator).queued =
      st.queued ++ (scanCandidates st now).map (fun s => s.id) ∧
    (SubmissionService.queueScheduledSubmissions st now validator).subs =
      st.subs.map (flipUnscheduled ((scanCandidates st now).map (fun s => s.id))) ∧
    (SubmissionService.queueScheduledSubmissions st now validator).posting =
      st.posting := by
  have hmaster := foldl_promoteOne_characterization
    ((scanCandidates st now).map (fun s => s.id)) st hsubs
    (scanCandidates_ids_nodup st now hsubs)
    (scanCandidates_not_queued st now) (scanCandidates_not_posting st now)
  have hbridge := queueScheduledSubmissions_eq_fold st now validator
  refine ⟨mem_scanCandidates st now, scanCandidates_sorted st now, ?_, ?_, ?_⟩ <;>
    rw [hbridge, hmaster]

/-- The submission of the C3 counterexample: scheduled with postAt = 0. -/
def subZeroPostAt : SubmissionEntity :=
  { id := 1, type := .FILE,
    schedule := { postAt := some 0, isScheduled := true },
    primary := "file.png", additional := [] }

/-- A store holding only the postAt-zero scheduled submission. -/
def stScheduledAtZero : ServiceState :=
  { subs := [subZeroPostAt], parts := [], posting := [], queued := [],
    nextId := 2, nextPartId := 0 }

/-- C3 counterexample: a submission scheduled at postAt = 0 is due, so the
tick promotes it and hands it to the queue - but the one-shot unscheduling
write is rejected by scheduleSubmission's falsy-postAt guard (an unawaited
promise, so the scan continues), and the submission remains scheduled,
against the claim that every promoted submission is marked
no-longer-scheduled. -/
theorem scheduled_at_zero_promoted_but_still_scheduled :
    (SubmissionService.queueScheduledSubmissions stScheduledAtZero 100
      (fun _ => [])).queued = [1] ∧
    (SubmissionService.queueScheduledSubmissions stScheduledAtZero 100
      (fun _ => [])).subs = [subZeroPostAt] ∧
    subZeroPostAt.schedule.isScheduled = true := by
  refine ⟨?_, ?_, rfl⟩ <;> rfl

/-- A due scheduled submission with the later postAt. -/
def subDueLater : SubmissionEntity :=
  { id := 1, type := .FILE,
    schedule := { postAt := some 5, isScheduled := true },
    primary := "a.png", additional := [] }

/-- A due scheduled submission with the earlier postAt. -/
def subDueEarlier : SubmissionEntity :=
  { id := 2, type := .NOTIFICATION,
    schedule := { postAt := some 3, isScheduled := true },
    primary := "", additional := [] }

/-- A store with two due scheduled submissions, ids 1 and 2. -/
def stTwoScheduled : ServiceState :=
  { subs := [subDueLater, subDueEarlier], parts := [], posting := [],
    queued := [], nextId := 3, nextPartId := 0 }

/-- Witness for the amended C3 at a concrete two-submission store; the
extra conjunct evaluates the tick, showing the earlier-due id 2 enqueued
before id 1. -/
theorem queueScheduledSubmissions_characterization_witness :
    (stTwoScheduled.subs.map (fun s => s.id)).Nodup ∧
    ((∀ s, s ∈ scanCandidates stTwoScheduled 100 ↔
        s ∈ stTwoScheduled.subs ∧ scanEligible stTwoScheduled 100 s = true) ∧
      List.Sorted subPostAtLE (scanCandidates stTwoScheduled 100) ∧
      (SubmissionService.queueScheduledSubmissions stTwoScheduled 100
        (fun _ => [])).queued =
        stTwoScheduled.queued ++
          (scanCandidates stTwoScheduled 100).map (fun s => s.id) ∧
      (SubmissionService.queueScheduledSubmissions stTwoScheduled 100
        (fun _ => [])).subs =
        stTwoScheduled.subs.map
          (flipUnscheduled ((scanCandidates stTwoScheduled 100).map (fun s => s.id))) ∧
      (SubmissionService.queueScheduledSubmissions stTwoScheduled 100
        (fun _ => [])).posting = stTwoScheduled.posting) ∧
    (SubmissionService.queueScheduledSubmissions stTwoScheduled 100
      (fun _ => [])).queued = [2, 1] :=
  ⟨by decide,
    queueScheduledSubmissions_characterization stTwoScheduled 100 (fun _ => [])
      (by decide),
    by rfl⟩

/-- C8: the tick's outcome does not depend on the validator - invalid
submissions are promoted and enqueued exactly like valid ones - and the
scan mutates nothing but the one-shot isScheduled flags of promoted
candidates: parts, the posting set, and every other field of every stored
submission are unchanged. -/
theorem queueScheduledSubmissions_pure_scan (st : ServiceState) (now : Nat)
    (hsubs : (st.subs.map (fun s => s.id)).Nodup) :
    (∀ v1 v2 : Nat → List String,
      SubmissionService.queueScheduledSubmissions st now v1 =
        SubmissionService.queueScheduledSubmissions st now v2) ∧
    ∀ v : Nat → List String,
      (SubmissionService.queueScheduledSubmissions st now v).parts = st.parts ∧
      (SubmissionService.queueScheduledSubmissions st now v).posting = st.posting ∧
      (SubmissionService.queueScheduledSubmissions st now v).subs.map
          eraseScheduledFlag =
        st.subs.map eraseScheduledFlag := by
  have hmaster := foldl_promoteOne_characterization
    ((scanCandidates st now).map (fun s => s.id)) st hsubs
    (scanCandidates_ids_nodup st now hsubs)
    (scanCandidates_not_queued st now) (scanCandidates_not_posting st now)
  constructor
  · intro v1 v2
    rw [queueScheduledSubmissions_eq_fold st now v1,
      queueScheduledSubmissions_eq_fold st now v2]
  · intro v
    rw [queueScheduledSubmissions_eq_fold st now v, hmaster]
    refine ⟨rfl, rfl, ?_⟩
    show (st.subs.map (flipUnscheduled _)).map eraseScheduledFlag =
      st.subs.map eraseScheduledFlag
    rw [List.map_map]
    exact List.map_congr_left
      (fun s _ => eraseScheduledFlag_flipUnscheduled _ s)

/-- Witness for C8 at the concrete two-submission store: an all-problems
validator yields the same outcome as an all-clear one, and the invalid
submissions are still enqueued in postAt order. -/
theorem queueScheduledSubmissions_pure_scan_witness :
    (stTwoScheduled.subs.map (fun s => s.id)).Nodup ∧
    SubmissionService.queueScheduledSubmissions stTwoScheduled 100
        (fun _ => []) =
      SubmissionService.queueScheduledSubmissions stTwoScheduled 100
        (fun _ => ["Requires at least 5 tags."]) ∧
    (SubmissionService.queueScheduledSubmissions stTwoScheduled 100
      (fun _ => ["Requires at least 5 tags."])).queued = [2, 1] :=
  ⟨by decide,
    (queueScheduledSubmissions_pure_scan stTwoScheduled 100 (by decide)).1 _ _,
    by rfl⟩

/-- A submission currently being posted (id 1 in the posting set). -/
def subBeingPosted : SubmissionEntity :=
  { id := 1, type := .FILE,
    schedule := { postAt := some 5, isScheduled := false },
    primary := "a.png", additional := ["b.png"] }

/-- A store where submission 1 is mid-post. -/
def stPostingOne : ServiceState :=
  { subs := [subBeingPosted], parts := [], posting := [1], queued := [],
    nextId := 2, nextPartId := 0 }

/-- C4 counterexample: while submission 1 is posting, the reschedule API
scheduleSubmission succeeds and mutates the schedule instead of rejecting,
and deleteSubmission proceeds to remove the submission - so not every write
API is rejected while isPosting is true. -/
theorem reschedule_and_delete_ignore_isPosting :
    isCurrentlyPosting stPostingOne 1 = true ∧
    (SubmissionService.scheduleSubmission stPostingOne 1 true none).2 = .ok () ∧
    (SubmissionService.scheduleSubmission stPostingOne 1 true none).1.subs.map
      (fun s => s.schedule.isScheduled) = [true] ∧
    (SubmissionService.deleteSubmission stPostingOne 1 false).2 = .ok () ∧
    (SubmissionService.deleteSubmission stPostingOne 1 false).1.subs = [] :=
  ⟨rfl, rfl, rfl, rfl, rfl⟩

/-- C4 amended: while a submission is posting, updateSubmission, setPostAt
and the file-change APIs reject immediately with the bad-request error and
leave the state unchanged; but scheduleSubmission performs no isPosting
check - with a truthy stored postAt it succeeds and writes the schedule -
and deleteSubmission performs no isPosting check either: it cancels the
in-flight post and deletes the submission. -/
theorem writes_guarded_by_isPosting (st : ServiceState) (id : Nat)
    (s : SubmissionEntity) (hfind : findSub st id = some s)
    (hposting : isCurrentlyPosting st id = true) :
    (∀ u : SubmissionUpdate, u.id = id →
      SubmissionService.updateSubmission st u =
        (st, .error (.badRequest "Cannot update a submission that is posting"))) ∧
    (∀ postAt, SubmissionService.setPostAt st id postAt =
      (st, .error (.badRequest "Cannot update a submission that is posting"))) ∧
    (∀ loc, SubmissionService.addFileSubmissionAdditionalFile st id loc =
      (st, .error (.badRequest "Cannot update a submission that is posting"))) ∧
    (∀ loc, SubmissionService.removeFileSubmissionAdditionalFile st id loc =
      (st, .error (.badRequest "Cannot update a submission that is posting"))) ∧
    (postAtFalsy s.schedule.postAt = false →
      SubmissionService.scheduleSubmission st id true none =
        (updateSub st { s with schedule := { s.schedule with isScheduled := true } },
          .ok ())) ∧
    ((SubmissionService.deleteSubmission st id false).2 = .ok () ∧
      findSub (SubmissionService.deleteSubmission st id false).1 id = none) := by
  have hsid : s.id = id := by
    have := List.find?_some hfind
    simpa using this
  have hget : SubmissionService.get st id = .ok
      { entity := s, isPosting := true, isQueued := isCurrentlyQueued st id } := by
    simp only [SubmissionService.get, hfind, hsid, hposting]
  refine ⟨?_, ?_, ?_, ?_, ?_, ?_, ?_⟩
  · intro u hu
    unfold SubmissionService.updateSubmission
    rw [hu, hget]
    rfl
  · intro postAt
    unfold SubmissionService.setPostAt
    rw [hget]
    rfl
  · intro loc
    unfold SubmissionService.addFileSubmissionAdditionalFile
    rw [hget]
    rfl
  · intro loc
    unfold SubmissionService.removeFileSubmissionAdditionalFile
    rw [hget]
    rfl
  · intro hfal
    unfold SubmissionService.scheduleSubmission
    rw [hget]
    simp [hfal]
  · unfold SubmissionService.deleteSubmission
    rw [hfind]
    rfl
  · unfold SubmissionService.deleteSubmission
    rw [hfind]
    unfold SubmissionService.deleteSubmissionEntity findSub
    rw [List.find?_eq_none]
    intro t ht
    have hkeep := (List.mem_filter.mp ht).2
    simpa [hsid] using hkeep

/-! ### create, duplicate, recreate parts, split (claims C5, C6) -/

/-- Failure injections for create: the external file service call (outside
the try block), the repository save, and the default-part creation. -/
structure CreateFailures where
  fileServiceFails : Bool
  saveFails : Bool
  defaultPartFails : Bool
deriving DecidableEq, Repr

/-- SubmissionService.create (lines 117-155): reject unknown types; for a
FILE submission the external file service runs before the try block, so its
failure propagates raw with nothing persisted; save and default-part
creation run inside the try, whose catch deletes the partially-created
submission - get accepts the entity reference itself, so the cleanup runs
even when the save failed and nothing was stored - and rethrows as an
internal server error.  The repository assigns identities at save; the
entity carries the prospective fresh id so the compensating delete targets
it. -/
def SubmissionService.create (st : ServiceState) (dtoType : String)
    (fails : CreateFailures) : ServiceState × Except ServiceError Nat :=
  if dtoType ≠ "FILE" ∧ dtoType ≠ "NOTIFICATION" then
    (st, .error (.badRequest ("Unknown submission type: " ++ dtoType)))
  else
    let ty := if dtoType = "FILE" then SubmissionType.FILE
      else SubmissionType.NOTIFICATION
    let entity : SubmissionEntity :=
      { id := st.nextId, type := ty,
        schedule := { postAt := none, isScheduled := false },
        primary := "", additional := [] }
    if ty = SubmissionType.FILE ∧ fails.fileServiceFails then
      (st, .error (.externalFailure "createSubmission"))
    else if fails.saveFails then
      ((SubmissionService.deleteSubmissionEntity st entity false).1,
        .error (.internalServer "Create Failure"))
    else
      let saved := saveSub st entity
      if fails.defaultPartFails then
        ((SubmissionService.deleteSubmissionEntity saved.1 saved.2 false).1,
          .error (.internalServer "Create Failure"))
      else
        (createDefaultPart saved.1 saved.2.id, .ok saved.2.id)

/-- Failure injections for duplicate: the repository save, or the part
duplication failing after some number of parts were already created. -/
structure DuplicateFailures where
  saveFails : Bool
  partsFailAfter : Option Nat
deriving DecidableEq, Repr

/-- SubmissionService.duplicate (lines 323-362): copy the original with its
identity cleared, save, then upsert every part of the original onto the new
submission with postStatus reset to UNPOSTED - and postedTo carried over
unchanged.  On failure the catch deletes by duplicate id and rethrows as an
internal error; when the save itself failed no identity was ever assigned,
so the repository lookup inside the cleanup delete raises NotFound and that
exception escapes in place of the internal one. -/
def SubmissionService.duplicate (st : ServiceState) (originalId : Nat)
    (fails : DuplicateFailures) : ServiceState × Except ServiceError Nat :=
  match findSub st originalId with
  | none => (st, .error .notFound)
  | some original =>
    if fails.saveFails then
      (st, .error .notFound)
    else
      let saved := saveSub st original
      let parts := getPartsForSubmission st originalId
      match fails.partsFailAfter with
      | some k =>
        let st2 := (parts.take k).foldl
          (fun acc p => createOrUpdateSubmissionPart acc
            { p with submissionId := saved.2.id, postStatus := .UNPOSTED })
          saved.1
        ((SubmissionService.deleteSubmission st2 saved.2.id false).1,
          .error (.internalServer "Duplicate Failure"))
      | none =>
        (parts.foldl
          (fun acc p => createOrUpdateSubmissionPart acc
            { p with submissionId := saved.2.id, postStatus := .UNPOSTED })
          saved.1,
          .ok saved.2.id)

/-- The part rewriting of SubmissionService.recreate (lines 182-201): each
logged part is retargeted at the new submission with postStatus reset to
UNPOSTED and postedTo cleared.  The account filter there uses an async
predicate - a promise is always truthy, so no element is ever dropped and
the filter is the identity. -/
def SubmissionService.recreatePartsMap (parts : List SubmissionPartEntity)
    (newId : Nat) : List SubmissionPartEntity :=
  parts.map (fun p =>
    { p with submissionId := newId, postStatus := .UNPOSTED, postedTo := none })

/-- The per-additional-file loop of splitAdditionalIntoSubmissions (lines
296-320): save a copy of the submission with that additional file as its
primary and no additional files, upsert the split parts onto it with
postStatus reset; a failure at iteration i (the injected failAt) triggers
the catch, which deletes the submission created in that iteration and
rethrows, stopping the loop. -/
def SubmissionService.splitLoop (splitParts : List SubmissionPartEntity)
    (base : SubmissionEntity) :
    List String → Nat → Option Nat → ServiceState →
      ServiceState × Except ServiceError Unit
  | [], _, _, st => (st, .ok ())
  | additionalFile :: rest, i, failAt, st =>
    let saved := saveSub st { base with primary := additionalFile, additional := [] }
    let st2 := splitParts.foldl
      (fun acc p => createOrUpdateSubmissionPart acc
        { p with submissionId := saved.2.id, postStatus := .UNPOSTED })
      saved.1
    if failAt = some i then
      ((SubmissionService.deleteSubmissionEntity st2 saved.2 false).1,
        .error (.internalServer "Additional Split Failure"))
    else
      SubmissionService.splitLoop splitParts base rest (i + 1) failAt st2

/-- SubmissionService.splitAdditionalIntoSubmissions (lines 268-321):
reject when there are no additional files; collect the non-default parts
whose website does not accept additional files; nothing to do when none;
otherwise reintroduce the default part and run the per-file loop.  The
unsupported-website set comes from the external adapter registry
capability flags (spec 6). -/
def SubmissionService.splitAdditionalIntoSubmissions (st : ServiceState)
    (id : Nat) (unsupportedAdditionalWebsites : List String)
    (failAt : Option Nat) : ServiceState × Except ServiceError Unit :=
  match findSub st id with
  | none => (st, .error .notFound)
  | some submission =>
    if submission.additional.isEmpty then
      (st, .error (.badRequest
        "Submission is not a File submission or does not have additional files"))
    else
      let parts := getPartsForSubmission st id
      let websitePartsThatNeedSplitting :=
        (parts.filter (fun p => !p.isDefault)).filter
          (fun p => unsupportedAdditionalWebsites.contains p.website)
      if websitePartsThatNeedSplitting.isEmpty then (st, .ok ())
      else
        let withDefault :=
          match parts.find? (fun p => p.isDefault) with
          | some d => websitePartsThatNeedSplitting ++ [d]
          | none => websitePartsThatNeedSplitting
        SubmissionService.splitLoop withDefault submission
          submission.additional 0 failAt st

/-- Identities referenced anywhere in the state stay below the repository's
fresh-id counter. -/
def WellFormedIds (st : ServiceState) : Prop :=
  (∀ s ∈ st.subs, s.id < st.nextId) ∧
    (∀ p ∈ st.parts, p.submissionId < st.nextId) ∧
    (∀ i ∈ st.queued, i < st.nextId) ∧
    (∀ i ∈ st.posting, i < st.nextId)

instance (st : ServiceState) : Decidable (WellFormedIds st) := by
  unfold WellFormedIds
  infer_instance

instance {e a : Type} [DecidableEq e] [DecidableEq a] : DecidableEq (Except e a)
  | .error x, .error y =>
    if h : x = y then .isTrue (by rw [h])
    else .isFalse (by intro hc; injection hc; exact h (by assumption))
  | .error _, .ok _ => .isFalse (by intro hc; exact Except.noConfusion hc)
  | .ok _, .error _ => .isFalse (by intro hc; exact Except.noConfusion hc)
  | .ok x, .ok y =>
    if h : x = y then .isTrue (by rw [h])
    else .isFalse (by intro hc; injection hc; exact h (by assumption))

/-- The spec invariant: postedTo is set exactly when status is POSTED. -/
def partStatusInvariant (p : SubmissionPartEntity) : Bool :=
  p.postedTo.isSome == (p.postStatus == PostStatus.POSTED)

/-- A part already delivered to Furbooru: POSTED with a postedTo value. -/
def postedFurbooruPart : SubmissionPartEntity :=
  { partId := 10, accountId := 3, submissionId := 1, website := "Furbooru",
    data := "", isDefault := false, postStatus := .POSTED,
    postedTo := some "https://furbooru.org/images/123" }

/-- The already-posted submission of the C5 scenario. -/
def postedSubmission : SubmissionEntity :=
  { id := 1, type := .FILE,
    schedule := { postAt := none, isScheduled := false },
    primary := "a.png", additional := [] }

/-- A store holding one submission whose only part has been posted. -/
def stWithPostedPart : ServiceState :=
  { subs := [postedSubmission],
    parts := [postedFurbooruPart], posting := [], queued := [],
    nextId := 2, nextPartId := 11 }

/-- C5: duplicating a submission whose part is POSTED with postedTo set
yields a copied part whose postStatus is reset to UNPOSTED while its
postedTo value is carried over - duplicate resets only postStatus, unlike
recreate, which also clears postedTo - so the copied part violates the
postedTo-iff-POSTED invariant the spec states and recreate upholds. -/
theorem duplicate_keeps_postedTo_on_unposted_copy :
    (SubmissionService.duplicate stWithPostedPart 1
      { saveFails := false, partsFailAfter := none }).2 = .ok 2 ∧
    ((SubmissionService.duplicate stWithPostedPart 1
        { saveFails := false, partsFailAfter := none }).1.parts.filter
      (fun p => p.submissionId == 2)).map
        (fun p => (p.postStatus, p.postedTo)) =
      [(PostStatus.UNPOSTED, some "https://furbooru.org/images/123")] ∧
    (SubmissionService.duplicate stWithPostedPart 1
      { saveFails := false, partsFailAfter := none }).1.parts.all
        partStatusInvariant = false ∧
    stWithPostedPart.parts.all partStatusInvariant = true ∧
    (SubmissionService.recreatePartsMap stWithPostedPart.parts 2).all
      partStatusInvariant = true := by
  refine ⟨by decide, by decide, by decide, by decide, by decide⟩

theorem upsert_preserves (st : ServiceState) (p : SubmissionPartEntity) :
    (createOrUpdateSubmissionPart st p).subs = st.subs ∧
    (createOrUpdateSubmissionPart st p).posting = st.posting ∧
    (createOrUpdateSubmissionPart st p).queued = st.queued ∧
    (createOrUpdateSubmissionPart st p).nextId = st.nextId ∧
    (createOrUpdateSubmissionPart st p).nextPartId = st.nextPartId := by
  unfold createOrUpdateSubmissionPart
  split <;> exact ⟨rfl, rfl, rfl, rfl, rfl⟩

theorem foldl_upsert_preserves (g : SubmissionPartEntity → SubmissionPartEntity)
    (ps : List SubmissionPartEntity) :
    ∀ st : ServiceState,
      (ps.foldl (fun acc p => createOrUpdateSubmissionPart acc (g p)) st).subs =
          st.subs ∧
      (ps.foldl (fun acc p => createOrUpdateSubmissionPart acc (g p)) st).posting =
          st.posting ∧
      (ps.foldl (fun acc p => createOrUpdateSubmissionPart acc (g p)) st).queued =
          st.queued ∧
      (ps.foldl (fun acc p => createOrUpdateSubmissionPart acc (g p)) st).nextId =
          st.nextId ∧
      (ps.foldl (fun acc p => createOrUpdateSubmissionPart acc (g p)) st).nextPartId =
          st.nextPartId := by
  induction ps with
  | nil => intro st; exact ⟨rfl, rfl, rfl, rfl, rfl⟩
  | cons p ps ih =>
    intro st
    rw [List.foldl_cons]
    have h1 := upsert_preserves st (g p)
    have h2 := ih (createOrUpdateSubmissionPart st (g p))
    exact ⟨h2.1.trans h1.1, h2.2.1.trans h1.2.1, h2.2.2.1.trans h1.2.2.1,
      h2.2.2.2.1.trans h1.2.2.2.1, h2.2.2.2.2.trans h1.2.2.2.2⟩

theorem filter_out_map_replace (p : SubmissionPartEntity) (newId : Nat)
    (hp : p.submissionId = newId) (l : List SubmissionPartEntity) :
    (l.map (fun q =>
        if q.submissionId == p.submissionId && q.accountId == p.accountId then p
        else q)).filter (fun q => !(q.submissionId == newId)) =
      l.filter (fun q => !(q.submissionId == newId)) := by
  induction l with
  | nil => rfl
  | cons q l ih =>
    by_cases hm : (q.submissionId == p.submissionId && q.accountId == p.accountId) = true
    · have hq : q.submissionId = newId := by
        have h1 := (Bool.and_eq_true _ _).mp hm
        have h2 : q.submissionId = p.submissionId := by simpa using h1.1
        rw [h2, hp]
      have hdp : (!(p.submissionId == newId)) = false := by simp [hp]
      have hdq : (!(q.submissionId == newId)) = false := by simp [hq]
      rw [List.map_cons, if_pos hm, List.filter_cons, List.filter_cons, hdp, hdq]
      simpa using ih
    · have hm' : (q.submissionId == p.submissionId && q.accountId == p.accountId) = false := by
        simpa using hm
      rw [List.map_cons, hm']
      simp only [Bool.false_eq_true, if_false]
      simp only [List.filter_cons, ih]

theorem upsert_filter_out (newId : Nat) (st : ServiceState)
    (p : SubmissionPartEntity) (hp : p.submissionId = newId) :
    (createOrUpdateSubmissionPart st p).parts.filter
        (fun q => !(q.submissionId == newId)) =
      st.parts.filter (fun q => !(q.submissionId == newId)) := by
  unfold createOrUpdateSubmissionPart
  split
  · exact filter_out_map_replace p newId hp st.parts
  · show (st.parts ++ [p]).filter (fun q => !(q.submissionId == newId)) = _
    rw [List.filter_append]
    simp [hp]

theorem foldl_upsert_filter_out (newId : Nat) (ps : List SubmissionPartEntity) :
    ∀ st : ServiceState,
      ((ps.foldl (fun acc p => createOrUpdateSubmissionPart acc
          { p with submissionId := newId, postStatus := .UNPOSTED }) st).parts).filter
        (fun q => !(q.submissionId == newId)) =
      st.parts.filter (fun q => !(q.submissionId == newId)) := by
  induction ps with
  | nil => intro st; rfl
  | cons p ps ih =>
    intro st
    rw [List.foldl_cons, ih _]
    exact upsert_filter_out newId st _ rfl

theorem deleteSubmissionEntity_restores (st : ServiceState)
    (s : SubmissionEntity)
    (hsubs : ∀ t ∈ st.subs, t.id ≠ s.id)
    (hparts : ∀ p ∈ st.parts, p.submissionId ≠ s.id)
    (hq : s.id ∉ st.queued) :
    (SubmissionService.deleteSubmissionEntity st s false).1 = st := by
  have h1 : st.queued.erase s.id = st.queued := List.erase_of_not_mem hq
  have h2 : st.parts.filter (fun p => !(p.submissionId == s.id)) = st.parts :=
    List.filter_eq_self.mpr (fun p hp => by simpa using hparts p hp)
  have h3 : st.subs.filter (fun t => !(t.id == s.id)) = st.subs :=
    List.filter_eq_self.mpr (fun t ht => by simpa using hsubs t ht)
  simp [SubmissionService.deleteSubmissionEntity, postServiceCancel,
    removeBySubmissionId, h1, h2, h3]

theorem deleteSubmissionEntity_after_save (st : ServiceState)
    (s : SubmissionEntity)
    (hsubs : ∀ t ∈ st.subs, t.id ≠ st.nextId)
    (hparts : ∀ p ∈ st.parts, p.submissionId ≠ st.nextId)
    (hq : st.nextId ∉ st.queued) :
    (SubmissionService.deleteSubmissionEntity (saveSub st s).1 (saveSub st s).2
      false).1 = { st with nextId := st.nextId + 1 } := by
  have h1 : st.queued.erase st.nextId = st.queued := List.erase_of_not_mem hq
  have h2 : st.parts.filter (fun p => !(p.submissionId == st.nextId)) = st.parts :=
    List.filter_eq_self.mpr (fun p hp => by simpa using hparts p hp)
  have h3 : (st.subs ++ [{ s with id := st.nextId }]).filter
      (fun t => !(t.id == st.nextId)) = st.subs := by
    rw [List.filter_append]
    have h3a : st.subs.filter (fun t => !(t.id == st.nextId)) = st.subs :=
      List.filter_eq_self.mpr (fun t ht => by simpa using hsubs t ht)
    simp [h3a]
  simp [SubmissionService.deleteSubmissionEntity, saveSub, postServiceCancel,
    removeBySubmissionId, h1, h2, h3]

theorem splitLoop_cleanup (splitParts : List SubmissionPartEntity)
    (base : SubmissionEntity) (k : Nat) :
    ∀ (files : List String) (i : Nat) (st : ServiceState),
      i ≤ k → k < i + files.length →
      (SubmissionService.splitLoop splitParts base files i (some k) st).2 =
        .error (.internalServer "Additional Split Failure") ∧
      (∀ s ∈ (SubmissionService.splitLoop splitParts base files i (some k) st).1.subs,
        s.id ≠ st.nextId + (k - i)) ∧
      (∀ p ∈ (SubmissionService.splitLoop splitParts base files i (some k) st).1.parts,
        p.submissionId ≠ st.nextId + (k - i)) := by
  intro files
  induction files with
  | nil =>
    intro i st hik hlen
    simp only [List.length_nil, Nat.add_zero] at hlen
    exact absurd hik (by omega)
  | cons f rest ih =>
    intro i st hik hlen
    by_cases hk : k = i
    · subst hk
      have hred : SubmissionService.splitLoop splitParts base (f :: rest) k
          (some k) st =
          ((SubmissionService.deleteSubmissionEntity
            (splitParts.foldl (fun acc p => createOrUpdateSubmissionPart acc
              { p with
                  submissionId :=
                    (saveSub st { base with primary := f, additional := [] }).2.id,
                  postStatus := .UNPOSTED })
              (saveSub st { base with primary := f, additional := [] }).1)
            (saveSub st { base with primary := f, additional := [] }).2 false).1,
          .error (.internalServer "Additional Split Failure")) := by
        simp [SubmissionService.splitLoop]
      rw [hred]
      refine ⟨rfl, ?_, ?_⟩
      · intro s hs
        have h2 := (List.mem_filter.mp hs).2
        simp only [Nat.sub_self, Nat.add_zero]
        simpa [saveSub] using h2
      · intro p hp
        have h2 := (List.mem_filter.mp hp).2
        simp only [Nat.sub_self, Nat.add_zero]
        simpa [saveSub] using h2
    · have hne : ¬(some k = some i) := by simpa using hk
      have hred : SubmissionService.splitLoop splitParts base (f :: rest) i
          (some k) st =
          SubmissionService.splitLoop splitParts base rest (i + 1) (some k)
            (splitParts.foldl (fun acc p => createOrUpdateSubmissionPart acc
              { p with
                  submissionId :=
                    (saveSub st { base with primary := f, additional := [] }).2.id,
                  postStatus := .UNPOSTED })
              (saveSub st { base with primary := f, additional := [] }).1) := by
        simp [SubmissionService.splitLoop, hne]
      rw [hred]
      have hik' : i + 1 ≤ k := by omega
      have hlen2 : k < i + (rest.length + 1) := by simpa using hlen
      have hlen' : k < (i + 1) + rest.length := by omega
      have hIH := ih (i + 1)
        (splitParts.foldl (fun acc p => createOrUpdateSubmissionPart acc
          { p with
              submissionId :=
                (saveSub st { base with primary := f, additional := [] }).2.id,
              postStatus := .UNPOSTED })
          (saveSub st { base with primary := f, additional := [] }).1)
        hik' hlen'
      have hnextEq : (splitParts.foldl (fun acc p => createOrUpdateSubmissionPart acc
          { p with
              submissionId :=
                (saveSub st { base with primary := f, additional := [] }).2.id,
              postStatus := .UNPOSTED })
          (saveSub st { base with primary := f, additional := [] }).1).nextId =
          st.nextId + 1 :=
        (foldl_upsert_preserves
          (fun p => { p with
              submissionId :=
                (saveSub st { base with primary := f, additional := [] }).2.id,
              postStatus := .UNPOSTED })
          splitParts
          (saveSub st { base with primary := f, additional := [] }).1).2.2.2.1
      refine ⟨hIH.1, ?_, ?_⟩
      · intro s hs
        have hval := hIH.2.1 s hs
        omega
      · intro p hp
        have hval := hIH.2.2 p hp
        omega

theorem deleteSubmission_after_save_and_upserts (st : ServiceState)
    (orig : SubmissionEntity) (ps : List SubmissionPartEntity)
    (hsubs : ∀ t ∈ st.subs, t.id ≠ st.nextId)
    (hparts : ∀ p ∈ st.parts, p.submissionId ≠ st.nextId)
    (hq : st.nextId ∉ st.queued) :
    (SubmissionService.deleteSubmission
      (ps.foldl (fun acc p => createOrUpdateSubmissionPart acc
        { p with submissionId := (saveSub st orig).2.id, postStatus := .UNPOSTED })
        (saveSub st orig).1)
      (saveSub st orig).2.id false).1 =
    { subs := st.subs, parts := st.parts, posting := st.posting,
      queued := st.queued, nextId := st.nextId + 1,
      nextPartId := st.nextPartId } := by
  have hpres := foldl_upsert_preserves
    (fun p =>
      { p with submissionId := (saveSub st orig).2.id, postStatus := .UNPOSTED })
    ps (saveSub st orig).1
  have hfilter := foldl_upsert_filter_out ((saveSub st orig).2.id) ps
    (saveSub st orig).1
  have hfind2 : findSub
      (ps.foldl (fun acc p => createOrUpdateSubmissionPart acc
        { p with submissionId := (saveSub st orig).2.id, postStatus := .UNPOSTED })
        (saveSub st orig).1)
      ((saveSub st orig).2.id) = some ((saveSub st orig).2) := by
    unfold findSub
    rw [hpres.1]
    show List.find? (fun s => s.id == (saveSub st orig).2.id)
      (st.subs ++ [(saveSub st orig).2]) = some ((saveSub st orig).2)
    rw [List.find?_append]
    have hn : st.subs.find? (fun s => s.id == (saveSub st orig).2.id) = none :=
      List.find?_eq_none.mpr (fun t ht => by simpa [saveSub] using hsubs t ht)
    rw [hn]
    simp [saveSub]
  have h1 : (ps.foldl (fun acc p => createOrUpdateSubmissionPart acc
      { p with submissionId := (saveSub st orig).2.id, postStatus := .UNPOSTED })
      (saveSub st orig).1).queued.erase ((saveSub st orig).2.id) = st.queued := by
    rw [hpres.2.2.1]
    show st.queued.erase ((saveSub st orig).2.id) = st.queued
    exact List.erase_of_not_mem hq
  have h2 : (ps.foldl (fun acc p => createOrUpdateSubmissionPart acc
      { p with submissionId := (saveSub st orig).2.id, postStatus := .UNPOSTED })
      (saveSub st orig).1).parts.filter
      (fun p => !(p.submissionId == (saveSub st orig).2.id)) = st.parts := by
    rw [hfilter]
    show st.parts.filter (fun p => !(p.submissionId == (saveSub st orig).2.id)) =
      st.parts
    exact List.filter_eq_self.mpr (fun p hp => by simpa [saveSub] using hparts p hp)
  have h3 : (ps.foldl (fun acc p => createOrUpdateSubmissionPart acc
      { p with submissionId := (saveSub st orig).2.id, postStatus := .UNPOSTED })
      (saveSub st orig).1).subs.filter
      (fun t => !(t.id == (saveSub st orig).2.id)) = st.subs := by
    rw [hpres.1]
    show (st.subs ++ [(saveSub st orig).2]).filter
      (fun t => !(t.id == (saveSub st orig).2.id)) = st.subs
    rw [List.filter_append]
    simp [saveSub]
    exact hsubs
  unfold SubmissionService.deleteSubmission
  rw [hfind2]
  simp only [SubmissionService.deleteSubmissionEntity, postServiceCancel,
    removeBySubmissionId, Bool.false_eq_true, if_false]
  simp only [h1, h2, h3, hpres.2.1, hpres.2.2.2.1, hpres.2.2.2.2]
  simp [saveSub]

/-- C6: a failed create, duplicate or split performs compensating cleanup
and surfaces an error to the caller.  Any failing create leaves the
submissions, parts, queue and posting set exactly as before.  Any failing
duplicate does too; in its save-failure path the cleanup delete cannot find
the never-assigned identity, so a NotFound error surfaces in place of the
internal one, but still nothing partial survives.  A split whose per-file
loop fails at iteration k deletes that iteration's partially-created
submission together with its parts before rethrowing, so no submission or
part carrying the failing identity survives. -/
theorem create_duplicate_split_cleanup (st : ServiceState)
    (hwf : WellFormedIds st) :
    (∀ dtoType fails e,
      (SubmissionService.create st dtoType fails).2 = .error e →
      (SubmissionService.create st dtoType fails).1.subs = st.subs ∧
      (SubmissionService.create st dtoType fails).1.parts = st.parts ∧
      (SubmissionService.create st dtoType fails).1.queued = st.queued ∧
      (SubmissionService.create st dtoType fails).1.posting = st.posting) ∧
    (∀ originalId fails e,
      (SubmissionService.duplicate st originalId fails).2 = .error e →
      (SubmissionService.duplicate st originalId fails).1.subs = st.subs ∧
      (SubmissionService.duplicate st originalId fails).1.parts = st.parts ∧
      (SubmissionService.duplicate st originalId fails).1.queued = st.queued ∧
      (SubmissionService.duplicate st originalId fails).1.posting = st.posting) ∧
    (∀ id unsupported k sub,
      findSub st id = some sub →
      sub.additional ≠ [] →
      ((getPartsForSubmission st id).filter (fun p => !p.isDefault)).filter
        (fun p => unsupported.contains p.website) ≠ [] →
      k < sub.additional.length →
      (SubmissionService.splitAdditionalIntoSubmissions st id unsupported
        (some k)).2 = .error (.internalServer "Additional Split Failure") ∧
      (∀ s ∈ (SubmissionService.splitAdditionalIntoSubmissions st id unsupported
          (some k)).1.subs, s.id ≠ st.nextId + k) ∧
      (∀ p ∈ (SubmissionService.splitAdditionalIntoSubmissions st id unsupported
          (some k)).1.parts, p.submissionId ≠ st.nextId + k)) := by
  obtain ⟨hwfs, hwfp, hwfq, hwfpo⟩ := hwf
  have hfs : ∀ t ∈ st.subs, t.id ≠ st.nextId :=
    fun t ht => Nat.ne_of_lt (hwfs t ht)
  have hfp : ∀ p ∈ st.parts, p.submissionId ≠ st.nextId :=
    fun p hp => Nat.ne_of_lt (hwfp p hp)
  have hfq : st.nextId ∉ st.queued :=
    fun hmem => absurd (hwfq _ hmem) (by omega)
  refine ⟨?_, ?_, ?_⟩
  · intro dtoType fails e herr
    simp only [SubmissionService.create] at herr ⊢
    by_cases h1 : dtoType ≠ "FILE" ∧ dtoType ≠ "NOTIFICATION"
    · rw [if_pos h1]
      exact ⟨rfl, rfl, rfl, rfl⟩
    · rw [if_neg h1] at herr ⊢
      by_cases h2 : (if dtoType = "FILE" then SubmissionType.FILE
          else SubmissionType.NOTIFICATION) = SubmissionType.FILE ∧
          fails.fileServiceFails = true
      · rw [if_pos h2]
        exact ⟨rfl, rfl, rfl, rfl⟩
      · rw [if_neg h2] at herr ⊢
        by_cases h3 : fails.saveFails = true
        · rw [if_pos h3]
          have hdel := deleteSubmissionEntity_restores st
            { id := st.nextId,
              type := if dtoType = "FILE" then SubmissionType.FILE
                else SubmissionType.NOTIFICATION,
              schedule := { postAt := none, isScheduled := false },
              primary := "", additional := [] } hfs hfp hfq
          exact ⟨by rw [hdel], by rw [hdel], by rw [hdel], by rw [hdel]⟩
        · rw [if_neg h3] at herr ⊢
          by_cases h4 : fails.defaultPartFails = true
          · rw [if_pos h4]
            have hdel := deleteSubmissionEntity_after_save st
              { id := st.nextId,
                type := if dtoType = "FILE" then SubmissionType.FILE
                  else SubmissionType.NOTIFICATION,
                schedule := { postAt := none, isScheduled := false },
                primary := "", additional := [] } hfs hfp hfq
            exact ⟨by rw [hdel], by rw [hdel], by rw [hdel], by rw [hdel]⟩
          · rw [if_neg h4] at herr
            simp at herr
  · intro originalId fails e herr
    cases hfind : findSub st originalId with
    | none =>
      have heq : SubmissionService.duplicate st originalId fails =
          (st, .error .notFound) := by
        simp [SubmissionService.duplicate, hfind]
      rw [heq]
      exact ⟨rfl, rfl, rfl, rfl⟩
    | some original =>
      by_cases h1 : fails.saveFails = true
      · have heq : SubmissionService.duplicate st originalId fails =
            (st, .error .notFound) := by
          simp [SubmissionService.duplicate, hfind, h1]
        rw [heq]
        exact ⟨rfl, rfl, rfl, rfl⟩
      · have h1' : fails.saveFails = false := by simpa using h1
        cases hpf : fails.partsFailAfter with
        | none =>
          have heq : SubmissionService.duplicate st originalId fails =
              ((getPartsForSubmission st originalId).foldl
                (fun acc p => createOrUpdateSubmissionPart acc
                  { p with
                    submissionId := (saveSub st original).2.id,
                    postStatus := .UNPOSTED })
                (saveSub st original).1, .ok (saveSub st original).2.id) := by
            simp [SubmissionService.duplicate, hfind, h1', hpf]
          rw [heq] at herr
          simp at herr
        | some kk =>
          have heq : SubmissionService.duplicate st originalId fails =
              ((SubmissionService.deleteSubmission
                (((getPartsForSubmission st originalId).take kk).foldl
                  (fun acc p => createOrUpdateSubmissionPart acc
                    { p with
                      submissionId := (saveSub st original).2.id,
                      postStatus := .UNPOSTED })
                  (saveSub st original).1)
                (saveSub st original).2.id false).1,
              .error (.internalServer "Duplicate Failure")) := by
            simp [SubmissionService.duplicate, hfind, h1', hpf]
          rw [heq]
          have hdel := deleteSubmission_after_save_and_upserts st original
            ((getPartsForSubmission st originalId).take kk) hfs hfp hfq
          exact ⟨by rw [hdel], by rw [hdel], by rw [hdel], by rw [hdel]⟩
  · intro id unsupported k sub hfind hnemp hneed hk
    have hemp : sub.additional.isEmpty = false := by
      simpa using hnemp
    have hneedEmp : (((getPartsForSubmission st id).filter
        (fun p => !p.isDefault)).filter
        (fun p => unsupported.contains p.website)).isEmpty = false := by
      simpa using hneed
    cases hfd : (getPartsForSubmission st id).find? (fun p => p.isDefault) with
    | none =>
      have heq : SubmissionService.splitAdditionalIntoSubmissions st id
          unsupported (some k) =
          SubmissionService.splitLoop
            (((getPartsForSubmission st id).filter (fun p => !p.isDefault)).filter
              (fun p => unsupported.contains p.website))
            sub sub.additional 0 (some k) st := by
        simp [SubmissionService.splitAdditionalIntoSubmissions, hfind, hemp,
          hneedEmp, hfd]
        intro hall
        exfalso
        obtain ⟨p0, hp0⟩ := List.exists_mem_of_ne_nil _ hneed
        have hm1 := List.mem_filter.mp hp0
        have hm2 := List.mem_filter.mp hm1.1
        have hweb : p0.website ∈ unsupported := by simpa using hm1.2
        have hdef := hall p0 hm2.1 hweb
        have hnd : p0.isDefault = false := by simpa using hm2.2
        simp [hdef] at hnd
      rw [heq]
      have hloop := splitLoop_cleanup
        (((getPartsForSubmission st id).filter (fun p => !p.isDefault)).filter
          (fun p => unsupported.contains p.website))
        sub k sub.additional 0 st (Nat.zero_le k) (by simpa using hk)
      refine ⟨hloop.1, ?_, ?_⟩
      · intro s hs
        have hval := hloop.2.1 s hs
        simpa using hval
      · intro p hp
        have hval := hloop.2.2 p hp
        simpa using hval
    | some d =>
      have heq : SubmissionService.splitAdditionalIntoSubmissions st id
          unsupported (some k) =
          SubmissionService.splitLoop
            ((((getPartsForSubmission st id).filter (fun p => !p.isDefault)).filter
              (fun p => unsupported.contains p.website)) ++ [d])
            sub sub.additional 0 (some k) st := by
        simp [SubmissionService.splitAdditionalIntoSubmissions, hfind, hemp,
          hneedEmp, hfd]
        intro hall
        exfalso
        obtain ⟨p0, hp0⟩ := List.exists_mem_of_ne_nil _ hneed
        have hm1 := List.mem_filter.mp hp0
        have hm2 := List.mem_filter.mp hm1.1
        have hweb : p0.website ∈ unsupported := by simpa using hm1.2
        have hdef := hall p0 hm2.1 hweb
        have hnd : p0.isDefault = false := by simpa using hm2.2
        simp [hdef] at hnd
      rw [heq]
      have hloop := splitLoop_cleanup
        ((((getPartsForSubmission st id).filter (fun p => !p.isDefault)).filter
          (fun p => unsupported.contains p.website)) ++ [d])
        sub k sub.additional 0 st (Nat.zero_le k) (by simpa using hk)
      refine ⟨hloop.1, ?_, ?_⟩
      · intro s hs
        have hval := hloop.2.1 s hs
        simpa using hval
      · intro p hp
        have hval := hloop.2.2 p hp
        simpa using hval

/-- The submission used by the cleanup witness: two additional files. -/
def splitSourceSub : SubmissionEntity :=
  { id := 0, type := .FILE,
    schedule := { postAt := none, isScheduled := false },
    primary := "main.png", additional := ["extra1.png", "extra2.png"] }

/-- Its synthetic default part. -/
def cleanupDefaultPart : SubmissionPartEntity :=
  { partId := 0, accountId := 0, submissionId := 0, website := "",
    data := "", isDefault := true, postStatus := .UNPOSTED, postedTo := none }

/-- A real Furbooru part of the same submission. -/
def cleanupWebsitePart : SubmissionPartEntity :=
  { partId := 1, accountId := 7, submissionId := 0, website := "Furbooru",
    data := "", isDefault := false, postStatus := .UNPOSTED, postedTo := none }

/-- A well-formed store for the cleanup witness. -/
def stForCleanup : ServiceState :=
  { subs := [splitSourceSub],
    parts := [cleanupDefaultPart, cleanupWebsitePart],
    posting := [], queued := [], nextId := 1, nextPartId := 2 }

/-- Create failing at the repository save. -/
def cleanupCreateFailures : CreateFailures :=
  { fileServiceFails := false, saveFails := true, defaultPartFails := false }

/-- Duplicate failing after one part was already duplicated. -/
def cleanupDuplicateFailures : DuplicateFailures :=
  { saveFails := false, partsFailAfter := some 1 }

/-- Witness for C6 at the concrete store: a save-failing create restores
everything; a part-duplication failure restores everything; a split failing
on its second file leaves no submission or part with that iteration's
identity. -/
theorem create_duplicate_split_cleanup_witness :
    WellFormedIds stForCleanup ∧
    ((SubmissionService.create stForCleanup "FILE" cleanupCreateFailures).2 =
        .error (.internalServer "Create Failure") ∧
      ((SubmissionService.create stForCleanup "FILE" cleanupCreateFailures).1.subs =
          stForCleanup.subs ∧
        (SubmissionService.create stForCleanup "FILE" cleanupCreateFailures).1.parts =
          stForCleanup.parts ∧
        (SubmissionService.create stForCleanup "FILE" cleanupCreateFailures).1.queued =
          stForCleanup.queued ∧
        (SubmissionService.create stForCleanup "FILE" cleanupCreateFailures).1.posting =
          stForCleanup.posting)) ∧
    ((SubmissionService.duplicate stForCleanup 0 cleanupDuplicateFailures).2 =
        .error (.internalServer "Duplicate Failure") ∧
      ((SubmissionService.duplicate stForCleanup 0 cleanupDuplicateFailures).1.subs =
          stForCleanup.subs ∧
        (SubmissionService.duplicate stForCleanup 0 cleanupDuplicateFailures).1.parts =
          stForCleanup.parts ∧
        (SubmissionService.duplicate stForCleanup 0 cleanupDuplicateFailures).1.queued =
          stForCleanup.queued ∧
        (SubmissionService.duplicate stForCleanup 0 cleanupDuplicateFailures).1.posting =
          stForCleanup.posting)) ∧
    ((SubmissionService.splitAdditionalIntoSubmissions stForCleanup 0 ["Furbooru"]
        (some 1)).2 = .error (.internalServer "Additional Split Failure") ∧
      (∀ s ∈ (SubmissionService.splitAdditionalIntoSubmissions stForCleanup 0
          ["Furbooru"] (some 1)).1.subs, s.id ≠ stForCleanup.nextId + 1) ∧
      (∀ p ∈ (SubmissionService.splitAdditionalIntoSubmissions stForCleanup 0
          ["Furbooru"] (some 1)).1.parts,
        p.submissionId ≠ stForCleanup.nextId + 1)) := by
  have h := create_duplicate_split_cleanup stForCleanup (by decide)
  refine ⟨by decide,
    ⟨by decide, h.1 "FILE" cleanupCreateFailures
      (.internalServer "Create Failure") (by decide)⟩,
    ⟨by decide, h.2.1 0 cleanupDuplicateFailures
      (.internalServer "Duplicate Failure") (by decide)⟩,
    ?_⟩
  exact h.2.2 0 ["Furbooru"] 1 splitSourceSub (by decide) (by decide)
    (by decide) (by decide)

/-- Witness for the amended C4 at the concrete mid-post store: the guarded
APIs reject with the bad-request error, while reschedule succeeds and
delete removes the submission. -/
theorem writes_guarded_by_isPosting_witness :
    findSub stPostingOne 1 = some subBeingPosted ∧
    isCurrentlyPosting stPostingOne 1 = true ∧
    SubmissionService.updateSubmission stPostingOne
        { id := 1, postAt := none, parts := [], removedParts := [] } =
      (stPostingOne, .error (.badRequest "Cannot update a submission that is posting")) ∧
    SubmissionService.setPostAt stPostingOne 1 (some 9) =
      (stPostingOne, .error (.badRequest "Cannot update a submission that is posting")) ∧
    SubmissionService.addFileSubmissionAdditionalFile stPostingOne 1 "c.png" =
      (stPostingOne, .error (.badRequest "Cannot update a submission that is posting")) ∧
    SubmissionService.removeFileSubmissionAdditionalFile stPostingOne 1 "b.png" =
      (stPostingOne, .error (.badRequest "Cannot update a submission that is posting")) ∧
    SubmissionService.scheduleSubmission stPostingOne 1 true none =
      (updateSub stPostingOne
        { subBeingPosted with
          schedule := { subBeingPosted.schedule with isScheduled := true } },
        .ok ()) ∧
    ((SubmissionService.deleteSubmission stPostingOne 1 false).2 = .ok () ∧
      findSub (SubmissionService.deleteSubmission stPostingOne 1 false).1 1 = none) := by
  have h := writes_guarded_by_isPosting stPostingOne 1 subBeingPosted rfl rfl
  exact ⟨rfl, rfl,
    h.1 { id := 1, postAt := none, parts := [], removedParts := [] } rfl,
    h.2.1 (some 9), h.2.2.1 "c.png", h.2.2.2.1 "b.png",
    h.2.2.2.2.1 (by decide), h.2.2.2.2.2⟩
